import Mathlib

/-!
# InspIRCd `m_cban` (channel bans): a shallow embedding and its properties

The development follows `src/modules/m_cban.cpp`.

* `time_t` and `long` are 64 bits wide.  Their values are carried as integers
  (`Int`), and machine arithmetic is written out: the sum `set_on + length` of
  two `long`s is `long_add`, the integer sum reduced into the range of `long`
  (two's complement, as the compiled code does); a conversion to
  `unsigned long` is `to_unsigned_long` (reduction modulo `2 ^ 64`); what `%u`
  prints of a 64-bit argument is `to_unsigned_int` (reduction modulo `2 ^ 32`).
  Reduction modulo `2 ^ 64` or `2 ^ 32` of an integer expression gives the same
  result whether or not the intermediate sums and differences were reduced.
* The global vector `cbans` is a `List CBan` passed in and returned.
* The global clock `TIME` is an argument.
* Everything the module writes (`log`, `WriteOpers`, `user->WriteServ`) is
  collected, in program order, in a list of `Out` events that keep the format
  arguments of each call.
* `DecodeCBan` starts from `CBan res;`, whose `set_on` and `length` are not
  initialised; the values they happen to hold are an argument (`uninit`).
* Collaborators that are declared in headers outside this module (the
  `irc::string` comparison, `IsValidChannelName`, `Server::CalcDuration`,
  `Server::GetServerName`, the constant `TYPE_OTHER`, `std::sort`) are fields of
  `Env`.
-/

namespace CBanModule

/-! ## Data model -/

/-- The class `CBan` (m_cban.cpp lines 30-46): `irc::string chname`,
`std::string set_by`, `time_t set_on`, `long length`, `std::string reason`. -/
structure CBan where
  chname : String
  set_by : String
  set_on : Int
  length : Int
  reason : String
  deriving DecidableEq, Repr

/-- The vector type `cbanlist` (line 54). -/
abbrev cbanlist := List CBan

/-- The fields of `userrec` that the module reads: `nick` and
`modes[UM_OPERATOR]`. -/
structure userrec where
  nick : String
  modes_UM_OPERATOR : Bool
  deriving DecidableEq, Repr

/-- Operator broadcasts, one constructor per `WriteOpers` call site, holding the
format arguments in the order of the call. -/
inductive OperMsg where
  /-- Line 247: `*** %li second CBAN on %s (%s) set %u seconds ago expired`
  with `length`, `chname`, `reason`, and `TIME - set_on` as `%u` shows it. -/
  | expired (length : Int) (chname reason : String) (ago : Nat)
  /-- Line 111: `*** %s added %lu second channel ban on %s (%s)`. -/
  | added_timed (nick : String) (length : Int) (channel reason : String)
  /-- Line 116: `*** %s added permenant channel ban on %s (%s)`. -/
  | added_permanent (nick channel reason : String)
  /-- Line 172: `*** %s tried to join %s which is CBANed (%s)`. -/
  | tried_join (nick cname reason : String)
  deriving DecidableEq, Repr

/-- Numeric replies, one constructor per `user->WriteServ` call site, holding
the format arguments after the leading `user->nick`. -/
inductive ServMsg where
  /-- Line 87: `386 %s %s :Removed CBAN with %lu seconds left before expiry (%s)`. -/
  | removed_386 (chname : String) (remaining : Nat) (reason : String)
  /-- Line 110: `385 %s %s :Added %lu second channel ban (%s)`. -/
  | added_timed_385 (channel : String) (length : Int) (reason : String)
  /-- Line 115: `385 %s %s :Added permenant channel ban (%s)`. -/
  | added_permanent_385 (channel reason : String)
  /-- Line 121: `403 %s %s :Invalid channel name`. -/
  | invalid_403 (channel : String)
  /-- Line 171: `384 %s %s :Cannot join channel, CBANed (%s)`. -/
  | cannot_join_384 (cname reason : String)
  deriving DecidableEq, Repr

/-- Everything the module emits. -/
inductive Out where
  /-- Line 246: `log(DEBUG, "m_cban.so: Ban on %s expired, removing...", chname)`. -/
  | log (chname : String)
  /-- A call of `WriteOpers`. -/
  | WriteOpers (m : OperMsg)
  /-- A call of `user->WriteServ`; `nick` is `user->nick`. -/
  | WriteServ (nick : String) (m : ServMsg)
  deriving DecidableEq, Repr

/-! ## Machine arithmetic -/

/-- Reduction of an integer into the range of `long` (64 bits, two's
complement): the value a signed 64-bit operation leaves. -/
def wrap_long (x : Int) : Int := (x + (2 : Int) ^ 63) % (2 : Int) ^ 64 - (2 : Int) ^ 63

/-- The sum `a + b` of two `long` (or `time_t`) values as the machine computes
it. -/
def long_add (a b : Int) : Int := wrap_long (a + b)

/-- What the conversion `%u` shows of a 64-bit argument: its low 32 bits, read
as an `unsigned int`. -/
def to_unsigned_int (x : Int) : Nat := (x % (2 : Int) ^ 32).toNat

/-- The comparator `CBanComp` (lines 226-229). -/
def CBanComp (ban1 ban2 : CBan) : Bool :=
  decide (long_add ban1.set_on ban1.length < long_add ban2.set_on ban2.length)

/-! ## The expiry sweep -/

/-- The `for` loop of `ExpireBans` (lines 239-255), started at the iterator
whose remaining range is the argument.  It walks forward; at the first entry
with `length != 0` and `set_on + length <= TIME` the entry is erased,
`go_again` is set and the loop is left through `break`.  The result is `none`
when the loop reaches `end()` with `go_again` still false, and otherwise the
erased entry together with the range after `erase`. -/
def ExpireBans_for (TIME : Int) : cbanlist → Option (CBan × cbanlist)
  | [] => none
  | b :: rest =>
    if b.length ≠ 0 then
      if long_add b.set_on b.length ≤ TIME then
        some (b, rest)
      else
        (ExpireBans_for TIME rest).map (fun r => (r.1, b :: r.2))
    else
      (ExpireBans_for TIME rest).map (fun r => (r.1, b :: r.2))

/-- What lines 246-247 emit for the entry about to be erased. -/
def ExpireBans_notify (TIME : Int) (b : CBan) : List Out :=
  [Out.log b.chname,
   Out.WriteOpers
     (OperMsg.expired b.length b.chname b.reason (to_unsigned_int (TIME - b.set_on)))]

/-- The function `ExpireBans` (lines 231-257): the `while (go_again)` loop.
Each iteration runs the `for` loop once; when that erased an entry the loop
goes round again on the shortened vector, otherwise it stops.  The result is
the final vector and the events emitted, in order. -/
def ExpireBans (TIME : Int) (cbans : cbanlist) : cbanlist × List Out :=
  match h : ExpireBans_for TIME cbans with
  | none => (cbans, [])
  | some (b, cbans2) =>
    let r := ExpireBans TIME cbans2
    (r.1, ExpireBans_notify TIME b ++ r.2)
termination_by cbans.length
decreasing_by
  have key : ∀ (l : cbanlist) (x : CBan) (l2 : cbanlist),
      ExpireBans_for TIME l = some (x, l2) → l2.length < l.length := by
    intro l
    induction l with
    | nil => intro x l2 hx; simp [ExpireBans_for] at hx
    | cons a rest ih =>
      intro x l2 hx
      unfold ExpireBans_for at hx
      split_ifs at hx with h1 h2
      · simp only [Option.some.injEq, Prod.mk.injEq] at hx
        rw [← hx.2]; simp
      all_goals
        cases hr : ExpireBans_for TIME rest with
        | none => rw [hr] at hx; simp at hx
        | some r =>
          rw [hr] at hx
          simp only [Option.map_some', Option.some.injEq, Prod.mk.injEq] at hx
          have hlt := ih r.1 r.2 (by rw [hr])
          rw [← hx.2]; simp; exact hlt
  exact key cbans b cbans2 h

/-! ## Collaborators -/

/-- What the module takes from the rest of the server.  `irc_eq a b` is the
comparison `a == b` when one side is an `irc::string` (hashcomp.h):
equality under IRC case folding.  `sort comp v` is
`std::sort(v.begin(), v.end(), comp)`. -/
structure Env where
  irc_eq : String → String → Bool
  IsValidChannelName : String → Bool
  CalcDuration : String → Int
  GetServerName : String
  TYPE_OTHER : Int
  sort : (CBan → CBan → Bool) → cbanlist → cbanlist

/-- What `std::sort` guarantees for the comparator `comp`: the result is a
rearrangement of the input, and no element is ordered by `comp` before an
element that precedes it.  The order of equivalent elements is left open. -/
def StdSortSpec (sort : (CBan → CBan → Bool) → cbanlist → cbanlist)
    (comp : CBan → CBan → Bool) : Prop :=
  ∀ v : cbanlist, (sort comp v).Perm v ∧ (sort comp v).Pairwise (fun a b => comp b a = false)

/-- Conversion of a signed value to `unsigned long` (64 bits): reduction
modulo `2 ^ 64`.  Applied to `(set_on + length) - TIME` it gives the value the
machine computes, whether or not the sum and the difference were reduced into
the range of `long` on the way (`to_unsigned_long_long_add`). -/
def to_unsigned_long (x : Int) : Nat := (x % (2 : Int) ^ 64).toNat

/-! ## The CBAN command -/

/-- The `for` loop of the remove form (lines 82-91): the first entry with
`parameters[0] == iter->chname` is reported with numeric 386 and erased, and
the loop is left through `break`. -/
def Handle_remove_for (env : Env) (TIME : Int) (user : userrec) (p0 : String) :
    cbanlist → cbanlist × List Out
  | [] => ([], [])
  | b :: rest =>
    if env.irc_eq p0 b.chname then
      let remaining : Nat := to_unsigned_long ((b.set_on + b.length) - TIME)
      (rest, [Out.WriteServ user.nick (ServMsg.removed_386 b.chname remaining b.reason)])
    else
      let r := Handle_remove_for env TIME user p0 rest
      (b :: r.1, r.2)

/-- The method `cmd_cban::Handle` (lines 72-124); `pcnt` is the number of
`parameters`.  The result is the vector afterwards and the events emitted. -/
def Handle (env : Env) (TIME : Int) (parameters : List String) (user : userrec)
    (cbans : cbanlist) : cbanlist × List Out :=
  let s := ExpireBans TIME cbans
  match parameters with
  | [] => s
  | [p0] =>
    let r := Handle_remove_for env TIME user p0 s.1
    (r.1, s.2 ++ r.2)
  | p0 :: p1 :: ps =>
    if env.IsValidChannelName p0 then
      let length : Int := env.CalcDuration p1
      let reason : String :=
        match ps with
        | p2 :: _ => p2
        | [] => "No reason supplied"
      let cbans2 := env.sort CBanComp (s.1 ++ [CBan.mk p0 user.nick TIME length reason])
      if length > 0 then
        (cbans2, s.2 ++
          [Out.WriteServ user.nick (ServMsg.added_timed_385 p0 length reason),
           Out.WriteOpers (OperMsg.added_timed user.nick length p0 reason)])
      else
        (cbans2, s.2 ++
          [Out.WriteServ user.nick (ServMsg.added_permanent_385 p0 reason),
           Out.WriteOpers (OperMsg.added_permanent user.nick p0 reason)])
    else
      (s.1, s.2 ++ [Out.WriteServ user.nick (ServMsg.invalid_403 p0)])

/-! ## The module hooks -/

/-- One line pushed on `results` by `OnStats` (line 154), as its parts in
order: server name, `210`, `user->nick`, `chname`, `set_by`, `set_on`,
`length`, `remaining` (an `unsigned long`), and the reason after ` :`. -/
structure StatsLine where
  server : String
  nick : String
  chname : String
  set_by : String
  set_on : Int
  length : Int
  remaining : Nat
  reason : String
  deriving DecidableEq, Repr

/-- The method `ModuleCBan::OnStats` (lines 145-159).  The result is the return
value, the vector afterwards, the events emitted and `results` afterwards. -/
def OnStats (env : Env) (TIME : Int) (symbol : Char) (user : userrec)
    (results : List StatsLine) (cbans : cbanlist) :
    Int × cbanlist × List Out × List StatsLine :=
  let s := ExpireBans TIME cbans
  if symbol = 'C' then
    (0, s.1, s.2, results ++ s.1.map (fun b =>
      let remaining : Nat := to_unsigned_long ((b.set_on + b.length) - TIME)
      StatsLine.mk env.GetServerName user.nick b.chname b.set_by b.set_on b.length
        remaining b.reason))
  else
    (0, s.1, s.2, results)

/-- The `for` loop of `OnUserPreJoin` (lines 166-176) with the final
`return 0`: the return value and the events emitted. -/
def OnUserPreJoin_for (env : Env) (user : userrec) (cname : String) :
    cbanlist → Int × List Out
  | [] => (0, [])
  | b :: rest =>
    if env.irc_eq b.chname cname && !user.modes_UM_OPERATOR then
      (1, [Out.WriteServ user.nick (ServMsg.cannot_join_384 cname b.reason),
           Out.WriteOpers (OperMsg.tried_join user.nick cname b.reason)])
    else
      OnUserPreJoin_for env user cname rest

/-- The method `ModuleCBan::OnUserPreJoin` (lines 161-177); the `chan` argument
is not used by the source.  The result is the return value, the vector
afterwards and the events emitted. -/
def OnUserPreJoin (env : Env) (TIME : Int) (user : userrec) (cname : String)
    (cbans : cbanlist) : Int × cbanlist × List Out :=
  let s := ExpireBans TIME cbans
  let r := OnUserPreJoin_for env user cname s.1
  (r.1, s.1, s.2 ++ r.2)

/-! ## The replication codec: decoding -/

/-- The classification `std::isspace` of the "C" locale: space and the control
characters 9 to 13. -/
def isspace (c : Char) : Bool :=
  c.toNat == 32 || (decide (9 ≤ c.toNat) && decide (c.toNat ≤ 13))

/-- The classification of decimal digits. -/
def isdigit (c : Char) : Bool :=
  decide (48 ≤ c.toNat) && decide (c.toNat ≤ 57)

/-- The state of a `std::istringstream`: the buffer that `str()` returns, the
characters not yet read, and whether the stream has stopped being `good()`. -/
structure istringstream where
  str : List Char
  gptr : List Char
  fail : Bool
  deriving DecidableEq, Repr

/-- The constructor `std::istringstream stream(data)`. -/
def istringstream.open (data : String) : istringstream :=
  { str := data.data, gptr := data.data, fail := false }

/-- The extraction `stream >> s` for a `std::string` with current value `old`:
leading white space is skipped and the characters up to the next white space
are taken.  When the stream is not good, or nothing but white space is left,
the stream fails and `s` keeps its value. -/
def extract_string (st : istringstream) (old : String) : istringstream × String :=
  if st.fail then (st, old)
  else
    let r := st.gptr.dropWhile isspace
    if r.isEmpty then ({ st with gptr := [], fail := true }, old)
    else
      ({ st with gptr := r.dropWhile (fun c => !isspace c) },
       String.mk (r.takeWhile (fun c => !isspace c)))

/-- The value of a run of decimal digits. -/
def digits_value (ds : List Char) : Nat :=
  ds.foldl (fun acc c => 10 * acc + (c.toNat - 48)) 0

/-- The largest `long` (64 bits). -/
def LONG_MAX : Int := (2 : Int) ^ 63 - 1

/-- The smallest `long` (64 bits). -/
def LONG_MIN : Int := -((2 : Int) ^ 63)

/-- The extraction `stream >> n` for a `long` (or `time_t`) with current value
`old`: leading white space is skipped, an optional sign and a run of decimal
digits are read.  When the stream is not good, or nothing but white space is
left, the stream fails and `n` keeps its value.  When no digit is found the
stream fails and `n` is set to zero; a value out of range fails the stream and
stores the nearest limit (the rule of `num_get` since C++11).  Once the stream
has failed, every later extraction leaves its target alone. -/
def extract_long (st : istringstream) (old : Int) : istringstream × Int :=
  if st.fail then (st, old)
  else
    let r := st.gptr.dropWhile isspace
    if r.isEmpty then ({ st with gptr := [], fail := true }, old)
    else
      let neg : Bool := r.head? == some (Char.ofNat 45)
      let signed : Bool := neg || r.head? == some (Char.ofNat 43)
      let body := if signed then r.tail else r
      let ds := body.takeWhile isdigit
      let after := body.dropWhile isdigit
      if ds.isEmpty then ({ st with gptr := after, fail := true }, 0)
      else
        let v : Int := if neg then -(digits_value ds : Int) else (digits_value ds : Int)
        if v < LONG_MIN then ({ st with gptr := after, fail := true }, LONG_MIN)
        else if LONG_MAX < v then ({ st with gptr := after, fail := true }, LONG_MAX)
        else ({ st with gptr := after }, v)

/-- Modelled from the spec: the extraction `stream >> s` for an `irc::string`
(declared in hashcomp.h, which is not part of the sources at hand).  The line
is tokenised by white space, so the extraction is that of a `std::string`. -/
def extract_irc_string (st : istringstream) (old : String) : istringstream × String :=
  extract_string st old

/-- The function `DecodeCBan` (lines 213-224).  `CBan res;` runs the empty
default constructor: the two strings start empty, while `set_on` and `length`
are not initialised and start with whatever values `uninit` supplies. -/
def DecodeCBan (uninit : Int × Int) (data : String) : CBan :=
  let stream := istringstream.open data
  let r1 := extract_irc_string stream ""
  let r2 := extract_string r1.1 ""
  let r3 := extract_long r2.1 uninit.1
  let r4 := extract_long r3.1 uninit.2
  { chname := r1.2, set_by := r2.2, set_on := r3.2, length := r4.2,
    reason := String.mk r4.1.str }

/-- The method `ModuleCBan::OnDecodeMetaData` (lines 187-194). -/
def OnDecodeMetaData (env : Env) (uninit : Int × Int) (target_type : Int)
    (extname extdata : String) (cbans : cbanlist) : cbanlist :=
  if target_type = env.TYPE_OTHER ∧ extname = "cban" then
    env.sort CBanComp (cbans ++ [DecodeCBan uninit extdata])
  else
    cbans

/-! ## The replication codec: encoding -/

/-- The character of one decimal digit. -/
def digit_char (d : Nat) : Char := Char.ofNat (48 + d)

/-- The decimal digits of `n` put in front of `acc`, most significant first;
`fuel` bounds the number of digits. -/
def put_digits : Nat → Nat → List Char → List Char
  | 0, _, acc => acc
  | fuel + 1, n, acc =>
    if n < 10 then digit_char n :: acc
    else put_digits fuel (n / 10) (digit_char (n % 10) :: acc)

/-- The decimal digits of a natural number. -/
def put_nat (n : Nat) : List Char := put_digits (n + 1) n []

/-- The insertion `stream << n` for a `long` (or `time_t`): the decimal
digits, after a `-` when the value is negative. -/
def insert_long (v : Int) : String :=
  String.mk (if v < 0 then Char.ofNat 45 :: put_nat v.natAbs else put_nat v.toNat)

/-- Modelled from the spec: the insertion `stream << s` for an `irc::string`
(declared in hashcomp.h, which is not part of the sources at hand): the
characters of the name are written as they are. -/
def insert_irc_string (s : String) : String := s

/-- The function `EncodeCBan` (lines 206-211). -/
def EncodeCBan (ban : CBan) : String :=
  insert_irc_string ban.chname ++ " " ++ ban.set_by ++ " " ++ insert_long ban.set_on ++ " " ++
    insert_long ban.length ++ " " ++ ban.reason

/-- The method `ModuleCBan::OnSyncOtherMetaData` (lines 179-185): the lines
handed to `ProtoSendMetaData` under the key `cban`, in order. -/
def OnSyncOtherMetaData (cbans : cbanlist) : List (String × String) :=
  cbans.map (fun b => ("cban", EncodeCBan b))

/-! ## The sweep with its passes counted -/

/-- The `while (go_again)` loop of `ExpireBans` with a bound on the number of
passes: every run of the `for` loop uses up one unit of `fuel`, and the result
is `none` when the bound is reached before the loop has finished.  The third
component counts the passes made. -/
def ExpireBans_passes (TIME : Int) : Nat → cbanlist → Option (cbanlist × List Out × Nat)
  | 0, _ => none
  | fuel + 1, cbans =>
    match ExpireBans_for TIME cbans with
    | none => some (cbans, [], 1)
    | some (b, cbans2) =>
      (ExpireBans_passes TIME fuel cbans2).map
        (fun r => (r.1, ExpireBans_notify TIME b ++ r.2.1, r.2.2 + 1))

/-! ## The sweep by a scan of the front -/

/-- The sweep as the design notes describe it for a collection sorted by
expiry: scan from the front, remove entries with `length != 0` and
`set_on + length <= now` (the test of `ExpireBans`, on the same machine sum),
and stop at the first entry that is not expired. -/
def Sweep_prefix_scan (now : Int) : cbanlist → cbanlist
  | [] => []
  | b :: rest =>
    if b.length ≠ 0 ∧ long_add b.set_on b.length ≤ now then Sweep_prefix_scan now rest
    else b :: rest

/-! ## A concrete environment for examples -/

/-- Modelled from the spec: the case folding of `irc::string` (hashcomp.h is
not part of the sources at hand), taken here as folding of the ASCII letters
`A` to `Z`. -/
def sample_lower (c : Char) : Char :=
  if 65 ≤ c.toNat ∧ c.toNat ≤ 90 then Char.ofNat (c.toNat + 32) else c

/-- Modelled from the spec: the case-insensitive comparison of channel names,
character by character under `sample_lower`. -/
def sample_irc_eq (a b : String) : Bool :=
  a.data.map sample_lower == b.data.map sample_lower

/-- Modelled from the spec: the channel-name syntax validator
(helperfuncs.h is not part of the sources at hand), taken here as: the name
starts with `#` and holds no space, comma or bell. -/
def sample_IsValidChannelName (s : String) : Bool :=
  s.data.head? == some (Char.ofNat 35) &&
    s.data.all (fun c => !(c.toNat == 32 || c.toNat == 44 || c.toNat == 7))

/-- The number of seconds in the unit named by a letter, zero for other
characters. -/
def sample_unit (c : Char) : Nat :=
  if c.toNat = 115 then 1            -- s
  else if c.toNat = 109 then 60      -- m
  else if c.toNat = 104 then 3600    -- h
  else if c.toNat = 100 then 86400   -- d
  else if c.toNat = 119 then 604800  -- w
  else if c.toNat = 121 then 31536000 -- y
  else 0

/-- Modelled from the spec: the duration-string parser (`1h3m2s` style),
which is an external collaborator: runs of digits, each followed by a unit
letter, are summed in seconds. -/
def sample_CalcDuration (s : String) : Int :=
  let r := s.data.foldl (fun (acc : Nat × Nat) c =>
    if isdigit c then (acc.1, 10 * acc.2 + (c.toNat - 48))
    else (acc.1 + acc.2 * sample_unit c, 0)) (0, 0)
  (r.1 : Int)

/-- An instance of `std::sort`: insertion sort by "not ordered after". -/
def sample_sort (comp : CBan → CBan → Bool) (v : cbanlist) : cbanlist :=
  v.insertionSort (fun a b => comp b a = false)

/-- The environment used in the examples. -/
def sample_env : Env where
  irc_eq := sample_irc_eq
  IsValidChannelName := sample_IsValidChannelName
  CalcDuration := sample_CalcDuration
  GetServerName := "irc.example.net"
  TYPE_OTHER := 4
  sort := sample_sort

/-! ## Sequences of operations -/

/-- The operations that reach the ban collection, each with the arguments of
its call. -/
inductive Op where
  /-- The command `CBAN` (add form, remove form). -/
  | Handle (TIME : Int) (parameters : List String) (user : userrec)
  /-- Inbound replication. -/
  | OnDecodeMetaData (uninit : Int × Int) (target_type : Int) (extname extdata : String)
  /-- A bare expiry sweep. -/
  | ExpireBans (TIME : Int)
  /-- The join check. -/
  | OnUserPreJoin (TIME : Int) (user : userrec) (cname : String)
  /-- The stats query. -/
  | OnStats (TIME : Int) (symbol : Char) (user : userrec) (results : List StatsLine)

/-- The collection after one operation. -/
def apply_op (env : Env) (op : Op) (cbans : cbanlist) : cbanlist :=
  match op with
  | Op.Handle TIME parameters user => (Handle env TIME parameters user cbans).1
  | Op.OnDecodeMetaData uninit target_type extname extdata =>
    OnDecodeMetaData env uninit target_type extname extdata cbans
  | Op.ExpireBans TIME => (ExpireBans TIME cbans).1
  | Op.OnUserPreJoin TIME user cname => (OnUserPreJoin env TIME user cname cbans).2.1
  | Op.OnStats TIME symbol user results => (OnStats env TIME symbol user results cbans).2.1

/-- The collection after a sequence of operations, starting from the empty
collection of a freshly loaded module (`cbanlist cbans;`, line 57). -/
def run (env : Env) (ops : List Op) : cbanlist :=
  ops.foldl (fun cbans op => apply_op env op cbans) []

/-! ## Auxiliary notions used in the statements -/

/-- The test of lines 242-244 on one entry: `length != 0` and
`set_on + length <= TIME`. -/
def is_expired (TIME : Int) (b : CBan) : Bool :=
  decide (b.length ≠ 0) && decide (long_add b.set_on b.length ≤ TIME)

/-- Whether an event is a reply written to the user (`user->WriteServ`). -/
def is_WriteServ : Out → Bool
  | Out.WriteServ _ _ => true
  | _ => false

/-- Whether an event is one of the two notices of a denied join (numeric 384
to the user, the broadcast of line 172 to operators). -/
def is_join_denial : Out → Bool
  | Out.WriteServ _ (ServMsg.cannot_join_384 _ _) => true
  | Out.WriteOpers (OperMsg.tried_join _ _ _) => true
  | _ => false

/-- Whether an event is an operator broadcast for an added ban (lines 111 and
116). -/
def is_added_broadcast : Out → Bool
  | Out.WriteOpers (OperMsg.added_timed _ _ _ _) => true
  | Out.WriteOpers (OperMsg.added_permanent _ _ _) => true
  | _ => false

/-- Whether an event is an operator broadcast (`WriteOpers`). -/
def is_WriteOpers : Out → Bool
  | Out.WriteOpers _ => true
  | _ => false

/-- Whether a string holds no white space character (`isspace`). -/
def no_whitespace (s : String) : Bool := s.data.all (fun c => !isspace c)

/-! ## Lemmas on machine arithmetic -/

theorem wrap_long_of_range (x : Int) (h1 : LONG_MIN ≤ x) (h2 : x ≤ LONG_MAX) :
    wrap_long x = x := by
  unfold LONG_MIN at h1
  unfold LONG_MAX at h2
  unfold wrap_long
  omega

theorem wrap_long_range (x : Int) : LONG_MIN ≤ wrap_long x ∧ wrap_long x ≤ LONG_MAX := by
  unfold LONG_MIN LONG_MAX wrap_long
  omega

theorem long_add_of_range (a b : Int) (h1 : LONG_MIN ≤ a + b) (h2 : a + b ≤ LONG_MAX) :
    long_add a b = a + b :=
  wrap_long_of_range (a + b) h1 h2

theorem to_unsigned_long_long_add (a b t : Int) :
    to_unsigned_long (wrap_long (long_add a b - t)) = to_unsigned_long ((a + b) - t) := by
  unfold to_unsigned_long long_add wrap_long
  congr 1
  omega

theorem to_unsigned_int_wrap_long (a b : Int) :
    to_unsigned_int (wrap_long (a - b)) = to_unsigned_int (a - b) := by
  unfold to_unsigned_int wrap_long
  congr 1
  omega

/-- The machine sum at work: a ban set at 1000 with length `LONG_MAX` has a sum
that wraps below zero, so the sweep at 1000 removes it; a ban with
`set_on = -10` and length `LONG_MIN` has a sum that wraps above zero and stays;
and `CBanComp` orders `{LONG_MAX, 1}` before `{0, 0}`. -/
theorem machine_sum_examples :
    long_add 1000 9223372036854775807 = -9223372036854774809 ∧
      ExpireBans_for 1000 [⟨"#x", "bob", 1000, 9223372036854775807, "r"⟩] =
        some (⟨"#x", "bob", 1000, 9223372036854775807, "r"⟩, []) ∧
      long_add (-10) (-9223372036854775808) = 9223372036854775798 ∧
      ExpireBans_for 1000 [⟨"#y", "bob", -10, -9223372036854775808, "r"⟩] = none ∧
      CBanComp ⟨"#a", "bob", 9223372036854775807, 1, "r"⟩ ⟨"#b", "bob", 0, 0, "r"⟩ = true := by
  decide

/-! ## Lemmas on the expiry sweep -/

theorem ExpireBans_for_cons (TIME : Int) (b : CBan) (rest : cbanlist) :
    ExpireBans_for TIME (b :: rest) =
      if is_expired TIME b then some (b, rest)
      else (ExpireBans_for TIME rest).map (fun r => (r.1, b :: r.2)) := by
  by_cases h1 : b.length = 0 <;> by_cases h2 : long_add b.set_on b.length ≤ TIME <;>
    simp [ExpireBans_for, is_expired, h1, h2]

theorem ExpireBans_for_none (TIME : Int) (l : cbanlist)
    (h : ExpireBans_for TIME l = none) : ∀ b ∈ l, is_expired TIME b = false := by
  induction l with
  | nil => simp
  | cons a rest ih =>
    rw [ExpireBans_for_cons] at h
    by_cases ha : is_expired TIME a = true
    · simp [ha] at h
    · simp only [ha, Bool.false_eq_true, if_false, Option.map_eq_none'] at h
      intro b hb
      rcases List.mem_cons.mp hb with rfl | hb
      · simpa using ha
      · exact ih h b hb

theorem ExpireBans_for_some (TIME : Int) (l : cbanlist) (x : CBan) (l2 : cbanlist)
    (h : ExpireBans_for TIME l = some (x, l2)) :
    is_expired TIME x = true ∧
      l.filter (fun b => !is_expired TIME b) = l2.filter (fun b => !is_expired TIME b) ∧
      l.filter (is_expired TIME) = x :: l2.filter (is_expired TIME) := by
  induction l generalizing l2 with
  | nil => simp [ExpireBans_for] at h
  | cons a rest ih =>
    rw [ExpireBans_for_cons] at h
    by_cases ha : is_expired TIME a = true
    · simp only [ha, if_true, Option.some.injEq, Prod.mk.injEq] at h
      obtain ⟨rfl, rfl⟩ := h
      simp [ha]
    · simp only [ha, Bool.false_eq_true, if_false] at h
      cases hr : ExpireBans_for TIME rest with
      | none => rw [hr] at h; simp at h
      | some r =>
        rw [hr] at h
        simp only [Option.map_some', Option.some.injEq, Prod.mk.injEq] at h
        obtain ⟨rfl, rfl⟩ := h
        obtain ⟨h1, h2, h3⟩ := ih r.2 (by rw [hr])
        simp only [Bool.not_eq_true] at ha
        refine ⟨h1, ?_, ?_⟩
        · simp [List.filter_cons, ha, h2]
        · simp [List.filter_cons, ha, h3]

theorem ExpireBans_of_none (TIME : Int) (l : cbanlist)
    (h : ExpireBans_for TIME l = none) : ExpireBans TIME l = (l, []) := by
  rw [ExpireBans]
  split
  · rfl
  · rename_i b l2 hb
    rw [h] at hb; simp at hb

theorem ExpireBans_of_some (TIME : Int) (l : cbanlist) (x : CBan) (l2 : cbanlist)
    (h : ExpireBans_for TIME l = some (x, l2)) :
    ExpireBans TIME l =
      ((ExpireBans TIME l2).1, ExpireBans_notify TIME x ++ (ExpireBans TIME l2).2) := by
  rw [ExpireBans]
  split
  · rename_i hn
    rw [h] at hn; simp at hn
  · rename_i b l3 hb
    rw [h] at hb
    simp only [Option.some.injEq, Prod.mk.injEq] at hb
    obtain ⟨rfl, rfl⟩ := hb
    rfl

/-- The sweep computes a filter: the survivors are the entries that fail the
expiry test, in order, and the events are those of the expired entries, in
order. -/
theorem ExpireBans_eq (TIME : Int) (cbans : cbanlist) :
    ExpireBans TIME cbans =
      (cbans.filter (fun b => !is_expired TIME b),
       (cbans.filter (is_expired TIME)).flatMap (ExpireBans_notify TIME)) := by
  generalize hn : (cbans.filter (is_expired TIME)).length = n
  induction n generalizing cbans with
  | zero =>
    cases hf : ExpireBans_for TIME cbans with
    | none =>
      rw [ExpireBans_of_none TIME cbans hf]
      have hall := ExpireBans_for_none TIME cbans hf
      have h1 : cbans.filter (fun b => !is_expired TIME b) = cbans := by
        apply List.filter_eq_self.mpr
        intro b hb; simp [hall b hb]
      have h2 : cbans.filter (is_expired TIME) = [] := by
        apply List.filter_eq_nil_iff.mpr
        intro b hb; simp [hall b hb]
      rw [h1, h2]; rfl
    | some r =>
      obtain ⟨_, _, h3⟩ := ExpireBans_for_some TIME cbans r.1 r.2 hf
      rw [h3] at hn; simp at hn
  | succ n ih =>
    cases hf : ExpireBans_for TIME cbans with
    | none =>
      have hall := ExpireBans_for_none TIME cbans hf
      have h2 : cbans.filter (is_expired TIME) = [] := by
        apply List.filter_eq_nil_iff.mpr
        intro b hb; simp [hall b hb]
      rw [h2] at hn; simp at hn
    | some r =>
      obtain ⟨x, l2⟩ := r
      rw [ExpireBans_of_some TIME cbans x l2 hf]
      obtain ⟨_, h2, h3⟩ := ExpireBans_for_some TIME cbans x l2 hf
      have hlen : (l2.filter (is_expired TIME)).length = n := by
        rw [h3] at hn; simpa using hn
      rw [ih l2 hlen, h2, h3]
      simp [List.flatMap_cons]

/-! ## The sweep: safety, survivors, idempotence -/

theorem ExpireBans_fst (TIME : Int) (cbans : cbanlist) :
    (ExpireBans TIME cbans).1 = cbans.filter (fun b => !is_expired TIME b) := by
  rw [ExpireBans_eq]

theorem ExpireBans_snd (TIME : Int) (cbans : cbanlist) :
    (ExpireBans TIME cbans).2 =
      (cbans.filter (is_expired TIME)).flatMap (ExpireBans_notify TIME) := by
  rw [ExpireBans_eq]

theorem is_expired_iff (TIME : Int) (b : CBan) :
    is_expired TIME b = true ↔ (b.length ≠ 0 ∧ long_add b.set_on b.length ≤ TIME) := by
  simp [is_expired]

theorem is_expired_false_iff (TIME : Int) (b : CBan) :
    is_expired TIME b = false ↔ (b.length = 0 ∨ long_add b.set_on b.length > TIME) := by
  rw [← Bool.not_eq_true, is_expired_iff]
  constructor
  · intro h
    by_cases h0 : b.length = 0
    · exact Or.inl h0
    · right
      by_contra hc
      exact h ⟨h0, not_lt.mp hc⟩
  · rintro (h | h) ⟨h0, hle⟩
    · exact h0 h
    · exact absurd hle (not_le.mpr h)

theorem ExpireBans_sublist_aux (TIME : Int) (cbans : cbanlist) :
    (ExpireBans TIME cbans).1.Sublist cbans := by
  rw [ExpireBans_fst]
  exact List.filter_sublist cbans

theorem is_expired_false_of_range (now : Int) (e : CBan)
    (h1 : LONG_MIN ≤ e.set_on + e.length) (h2 : e.set_on + e.length ≤ LONG_MAX) :
    is_expired now e = false ↔ (e.length = 0 ∨ e.set_on + e.length > now) := by
  rw [is_expired_false_iff, long_add_of_range _ _ h1 h2]

theorem mem_ExpireBans (now : Int) (cbans : cbanlist) (e : CBan) :
    e ∈ (ExpireBans now cbans).1 ↔ e ∈ cbans ∧ is_expired now e = false := by
  rw [ExpireBans_fst, List.mem_filter]
  simp

/-- C1 (sweep safety): after `ExpireBans` has run with `TIME = now`, no entry
left in the collection has `length != 0` and `set_on + length <= now`, the sum
being the one the program computes; for an entry whose sum does not overflow
the type `long` this is the integer sum. -/
theorem sweep_safety (now : Int) (cbans : cbanlist) :
    ∀ e ∈ (ExpireBans now cbans).1,
      ¬ (e.length ≠ 0 ∧ long_add e.set_on e.length ≤ now) ∧
      (LONG_MIN ≤ e.set_on + e.length → e.set_on + e.length ≤ LONG_MAX →
        ¬ (e.length ≠ 0 ∧ e.set_on + e.length ≤ now)) := by
  intro e he
  have hk := ((mem_ExpireBans now cbans e).mp he).2
  have hprog : ¬ (e.length ≠ 0 ∧ long_add e.set_on e.length ≤ now) := by
    intro hexp
    rw [(is_expired_iff now e).mpr hexp] at hk
    exact absurd hk (by decide)
  refine ⟨hprog, ?_⟩
  intro h1 h2
  rw [← long_add_of_range _ _ h1 h2]
  exact hprog

/-- C1, at an instance: a sweep at 1011 over an expired ban, a permanent ban
and a live ban; the live ban is left and is not expired. -/
theorem sweep_safety_witness :
    (⟨"#c", "bob", 1000, 3600, "z"⟩ : CBan) ∈
        (ExpireBans 1011 [⟨"#a", "bob", 1000, 10, "x"⟩, ⟨"#b", "bob", 1000, 0, "y"⟩,
          ⟨"#c", "bob", 1000, 3600, "z"⟩]).1 ∧
      (LONG_MIN ≤ (1000 : Int) + 3600 ∧ (1000 : Int) + 3600 ≤ LONG_MAX) ∧
      ¬ ((⟨"#c", "bob", 1000, 3600, "z"⟩ : CBan).length ≠ 0 ∧
        (⟨"#c", "bob", 1000, 3600, "z"⟩ : CBan).set_on +
          (⟨"#c", "bob", 1000, 3600, "z"⟩ : CBan).length ≤ 1011) :=
  ⟨by rw [ExpireBans_fst]; decide, by decide,
   (sweep_safety 1011 [⟨"#a", "bob", 1000, 10, "x"⟩, ⟨"#b", "bob", 1000, 0, "y"⟩,
     ⟨"#c", "bob", 1000, 3600, "z"⟩] ⟨"#c", "bob", 1000, 3600, "z"⟩
     (by rw [ExpireBans_fst]; decide)).2 (by decide) (by decide)⟩

/-- C2 (permanent immunity and survivor preservation): the collection left
by `ExpireBans` is the prior collection filtered, in order and with
multiplicity, down to the entries that are permanent or have
`set_on + length > now` (the sum the program computes; the integer sum when
no entry's sum overflows the type `long`); so every permanent entry is still
present, every entry with an in-range sum above `now` is still present as often
as before, and every entry that went had `length != 0` and
`set_on + length <= now`. -/
theorem sweep_survivors (now : Int) (cbans : cbanlist) :
    (ExpireBans now cbans).1 =
        cbans.filter (fun e => decide (e.length = 0 ∨ long_add e.set_on e.length > now)) ∧
      ((∀ e ∈ cbans, LONG_MIN ≤ e.set_on + e.length ∧ e.set_on + e.length ≤ LONG_MAX) →
        (ExpireBans now cbans).1 =
          cbans.filter (fun e => decide (e.length = 0 ∨ e.set_on + e.length > now))) ∧
      (∀ e ∈ cbans, e.length = 0 → e ∈ (ExpireBans now cbans).1) ∧
      (∀ e ∈ cbans, LONG_MIN ≤ e.set_on + e.length → e.set_on + e.length ≤ LONG_MAX →
        (e.length = 0 ∨ e.set_on + e.length > now) →
        e ∈ (ExpireBans now cbans).1 ∧
          List.count e (ExpireBans now cbans).1 = List.count e cbans) ∧
      (ExpireBans now cbans).1.Sublist cbans ∧
      (∀ e ∈ cbans, e ∉ (ExpireBans now cbans).1 →
        e.length ≠ 0 ∧ long_add e.set_on e.length ≤ now ∧
        (LONG_MIN ≤ e.set_on + e.length → e.set_on + e.length ≤ LONG_MAX →
          e.set_on + e.length ≤ now)) := by
  refine ⟨?_, ?_, ?_, ?_, ?_, ?_⟩
  · rw [ExpireBans_fst]
    apply List.filter_congr
    intro e _
    by_cases h : is_expired now e = true
    · have h2 := (is_expired_iff now e).mp h
      have : ¬ (e.length = 0 ∨ long_add e.set_on e.length > now) := by
        rintro (h0 | hgt)
        · exact h2.1 h0
        · exact absurd h2.2 (not_le.mpr hgt)
      simp [h, this]
    · simp only [Bool.not_eq_true] at h
      have h2 := (is_expired_false_iff now e).mp h
      simp [h, h2]
  · intro hr
    rw [ExpireBans_fst]
    apply List.filter_congr
    intro e he
    have hiff := is_expired_false_of_range now e (hr e he).1 (hr e he).2
    by_cases h : is_expired now e = true
    · have : ¬ (e.length = 0 ∨ e.set_on + e.length > now) := by
        intro hk
        rw [hiff.mpr hk] at h
        exact absurd h (by decide)
      simp [h, this]
    · simp only [Bool.not_eq_true] at h
      simp [h, hiff.mp h]
  · intro e he h0
    exact (mem_ExpireBans now cbans e).mpr ⟨he, (is_expired_false_iff now e).mpr (Or.inl h0)⟩
  · intro e he h1 h2 hk
    have hf : is_expired now e = false := (is_expired_false_of_range now e h1 h2).mpr hk
    refine ⟨(mem_ExpireBans now cbans e).mpr ⟨he, hf⟩, ?_⟩
    rw [ExpireBans_fst, List.count_filter]
    simp [hf]
  · exact ExpireBans_sublist_aux now cbans
  · intro e he hne
    have hexp : is_expired now e = true := by
      by_contra hc
      simp only [Bool.not_eq_true] at hc
      exact hne ((mem_ExpireBans now cbans e).mpr ⟨he, hc⟩)
    have h2 := (is_expired_iff now e).mp hexp
    refine ⟨h2.1, h2.2, ?_⟩
    intro h1 h3
    rw [← long_add_of_range _ _ h1 h3]
    exact h2.2

/-- C3 (sweep idempotence): a second run of `ExpireBans` with the same `now`
leaves the collection of the first run, removes nothing and emits no event (in
particular no expiry notification). -/
theorem sweep_idempotent (now : Int) (cbans : cbanlist) :
    ExpireBans now (ExpireBans now cbans).1 = ((ExpireBans now cbans).1, []) ∧
      (ExpireBans now (ExpireBans now cbans).1).1 = (ExpireBans now cbans).1 ∧
      (ExpireBans now (ExpireBans now cbans).1).1.length = (ExpireBans now cbans).1.length ∧
      (ExpireBans now (ExpireBans now cbans).1).2 = [] := by
  have h : ExpireBans now (ExpireBans now cbans).1 = ((ExpireBans now cbans).1, []) := by
    rw [ExpireBans_eq now (ExpireBans now cbans).1, ExpireBans_fst]
    have h1 : (cbans.filter (fun b => !is_expired now b)).filter (fun b => !is_expired now b)
        = cbans.filter (fun b => !is_expired now b) := by
      rw [List.filter_filter]
      apply List.filter_congr
      intro e _
      simp
    have h2 : (cbans.filter (fun b => !is_expired now b)).filter (is_expired now) = [] := by
      apply List.filter_eq_nil_iff.mpr
      intro e he
      rw [List.mem_filter] at he
      simpa using he.2
    rw [h1, h2]
    rfl
  refine ⟨h, ?_, ?_, ?_⟩ <;> rw [h]

/-! ## The sort order -/

theorem sorted_of_spec (sort : (CBan → CBan → Bool) → cbanlist → cbanlist)
    (hs : StdSortSpec sort CBanComp) (v : cbanlist) :
    (sort CBanComp v).Pairwise (fun a b => long_add a.set_on a.length ≤ long_add b.set_on b.length) := by
  refine List.Pairwise.imp ?_ (hs v).2
  intro a b hab
  simp only [CBanComp, decide_eq_false_iff_not, not_lt] at hab
  exact hab

theorem sample_sort_spec : StdSortSpec sample_env.sort CBanComp := by
  intro v
  show (sample_sort CBanComp v).Perm v ∧
    (sample_sort CBanComp v).Pairwise (fun a b => CBanComp b a = false)
  unfold sample_sort
  haveI : IsTotal CBan (fun a b => CBanComp b a = false) := ⟨by
    intro a b
    simp only [CBanComp, decide_eq_false_iff_not, not_lt]
    exact le_total _ _⟩
  haveI : IsTrans CBan (fun a b => CBanComp b a = false) := ⟨by
    intro a b c
    simp only [CBanComp, decide_eq_false_iff_not, not_lt]
    exact le_trans⟩
  exact ⟨List.perm_insertionSort _ v, List.sorted_insertionSort _ v⟩

theorem Handle_remove_for_sublist (env : Env) (TIME : Int) (user : userrec) (p0 : String)
    (l : cbanlist) : (Handle_remove_for env TIME user p0 l).1.Sublist l := by
  induction l with
  | nil => simp [Handle_remove_for]
  | cons b rest ih =>
    unfold Handle_remove_for
    by_cases h : env.irc_eq p0 b.chname = true
    · simp [h]
    · simp only [h, Bool.false_eq_true, if_false]
      exact ih.cons₂ b

theorem Handle_add_fst (env : Env) (TIME : Int) (p0 p1 : String) (ps : List String)
    (user : userrec) (cbans : cbanlist) (hv : env.IsValidChannelName p0 = true) :
    (Handle env TIME (p0 :: p1 :: ps) user cbans).1 =
      env.sort CBanComp ((ExpireBans TIME cbans).1 ++
        [CBan.mk p0 user.nick TIME (env.CalcDuration p1)
          (match ps with
           | p2 :: _ => p2
           | [] => "No reason supplied")]) := by
  simp only [Handle, hv, if_true]
  split_ifs <;> rfl

theorem Handle_invalid_eq (env : Env) (TIME : Int) (p0 p1 : String) (ps : List String)
    (user : userrec) (cbans : cbanlist) (hv : env.IsValidChannelName p0 = false) :
    Handle env TIME (p0 :: p1 :: ps) user cbans =
      ((ExpireBans TIME cbans).1,
       (ExpireBans TIME cbans).2 ++ [Out.WriteServ user.nick (ServMsg.invalid_403 p0)]) := by
  simp [Handle, hv]

theorem ExpireBans_sublist (TIME : Int) (cbans : cbanlist) :
    (ExpireBans TIME cbans).1.Sublist cbans := by
  rw [ExpireBans_fst]
  exact List.filter_sublist cbans

theorem Handle_sorted (env : Env) (hs : StdSortSpec env.sort CBanComp) (TIME : Int)
    (parameters : List String) (user : userrec) (cbans : cbanlist)
    (h : cbans.Pairwise (fun a b => long_add a.set_on a.length ≤ long_add b.set_on b.length)) :
    (Handle env TIME parameters user cbans).1.Pairwise
      (fun a b => long_add a.set_on a.length ≤ long_add b.set_on b.length) := by
  have hsw := h.sublist (ExpireBans_sublist TIME cbans)
  match parameters with
  | [] => exact hsw
  | [p0] =>
    exact hsw.sublist (Handle_remove_for_sublist env TIME user p0 _)
  | p0 :: p1 :: ps =>
    by_cases hv : env.IsValidChannelName p0 = true
    · rw [Handle_add_fst env TIME p0 p1 ps user cbans hv]
      exact sorted_of_spec env.sort hs _
    · simp only [Bool.not_eq_true] at hv
      rw [Handle_invalid_eq env TIME p0 p1 ps user cbans hv]
      exact hsw

theorem OnDecodeMetaData_sorted (env : Env) (hs : StdSortSpec env.sort CBanComp)
    (uninit : Int × Int) (target_type : Int) (extname extdata : String) (cbans : cbanlist)
    (h : cbans.Pairwise (fun a b => long_add a.set_on a.length ≤ long_add b.set_on b.length)) :
    (OnDecodeMetaData env uninit target_type extname extdata cbans).Pairwise
      (fun a b => long_add a.set_on a.length ≤ long_add b.set_on b.length) := by
  unfold OnDecodeMetaData
  split_ifs
  · exact sorted_of_spec env.sort hs _
  · exact h

theorem Op_apply_sorted (env : Env) (hs : StdSortSpec env.sort CBanComp) (op : Op)
    (cbans : cbanlist)
    (h : cbans.Pairwise (fun a b => long_add a.set_on a.length ≤ long_add b.set_on b.length)) :
    (apply_op env op cbans).Pairwise (fun a b => long_add a.set_on a.length ≤ long_add b.set_on b.length) := by
  cases op with
  | Handle TIME parameters user => exact Handle_sorted env hs TIME parameters user cbans h
  | OnDecodeMetaData uninit target_type extname extdata =>
    exact OnDecodeMetaData_sorted env hs uninit target_type extname extdata cbans h
  | ExpireBans TIME => exact h.sublist (ExpireBans_sublist TIME cbans)
  | OnUserPreJoin TIME user cname => exact h.sublist (ExpireBans_sublist TIME cbans)
  | OnStats TIME symbol user results =>
    show ((OnStats env TIME symbol user results cbans).2.1).Pairwise _
    unfold OnStats
    split_ifs <;> exact h.sublist (ExpireBans_sublist TIME cbans)

theorem foldl_apply_sorted (env : Env) (hs : StdSortSpec env.sort CBanComp) (ops : List Op) :
    ∀ cbans : cbanlist,
      cbans.Pairwise (fun a b => long_add a.set_on a.length ≤ long_add b.set_on b.length) →
      (ops.foldl (fun c op => apply_op env op c) cbans).Pairwise
        (fun a b => long_add a.set_on a.length ≤ long_add b.set_on b.length) := by
  induction ops with
  | nil => intro cbans h; exact h
  | cons op rest ih =>
    intro cbans h
    exact ih _ (Op_apply_sorted env hs op cbans h)

theorem pairwise_of_range (l : cbanlist)
    (hr : ∀ e ∈ l, LONG_MIN ≤ e.set_on + e.length ∧ e.set_on + e.length ≤ LONG_MAX)
    (h : l.Pairwise (fun a b => long_add a.set_on a.length ≤ long_add b.set_on b.length)) :
    l.Pairwise (fun a b => a.set_on + a.length ≤ b.set_on + b.length) := by
  refine List.Pairwise.imp_of_mem ?_ h
  intro a b ha hb hab
  rw [long_add_of_range _ _ (hr a ha).1 (hr a ha).2,
    long_add_of_range _ _ (hr b hb).1 (hr b hb).2] at hab
  exact hab

/-- C4 (sort invariant after Add): whatever the prior collection, after an add
by the CBAN add form (valid channel, two or more parameters) and after an add
by inbound replication, the collection is the result of `std::sort` with
`CBanComp` on the collection with the new entry pushed at the back, and it is
non-decreasing in `set_on + length` as the program computes the sum; when no
entry's sum overflows the type `long` it is non-decreasing in the integer sum.
A permanent entry takes part with the key `set_on + 0`. -/
theorem sort_invariant_after_add (env : Env) (hs : StdSortSpec env.sort CBanComp)
    (now : Int) (user : userrec) (cbans : cbanlist) (p0 p1 : String) (ps : List String)
    (hv : env.IsValidChannelName p0 = true) (uninit : Int × Int) (extdata : String) :
    (Handle env now (p0 :: p1 :: ps) user cbans).1.Pairwise
        (fun a b => long_add a.set_on a.length ≤ long_add b.set_on b.length) ∧
      (OnDecodeMetaData env uninit env.TYPE_OTHER "cban" extdata cbans).Pairwise
        (fun a b => long_add a.set_on a.length ≤ long_add b.set_on b.length) ∧
      OnDecodeMetaData env uninit env.TYPE_OTHER "cban" extdata cbans =
        env.sort CBanComp (cbans ++ [DecodeCBan uninit extdata]) ∧
      (∀ e : CBan, (env.sort CBanComp (cbans ++ [e])).Pairwise
        (fun a b => long_add a.set_on a.length ≤ long_add b.set_on b.length)) ∧
      ((∀ e ∈ (Handle env now (p0 :: p1 :: ps) user cbans).1,
          LONG_MIN ≤ e.set_on + e.length ∧ e.set_on + e.length ≤ LONG_MAX) →
        (Handle env now (p0 :: p1 :: ps) user cbans).1.Pairwise
          (fun a b => a.set_on + a.length ≤ b.set_on + b.length)) ∧
      ((∀ e ∈ OnDecodeMetaData env uninit env.TYPE_OTHER "cban" extdata cbans,
          LONG_MIN ≤ e.set_on + e.length ∧ e.set_on + e.length ≤ LONG_MAX) →
        (OnDecodeMetaData env uninit env.TYPE_OTHER "cban" extdata cbans).Pairwise
          (fun a b => a.set_on + a.length ≤ b.set_on + b.length)) := by
  have h1 : (Handle env now (p0 :: p1 :: ps) user cbans).1.Pairwise
      (fun a b => long_add a.set_on a.length ≤ long_add b.set_on b.length) := by
    rw [Handle_add_fst env now p0 p1 ps user cbans hv]
    exact sorted_of_spec env.sort hs _
  have h2 : (OnDecodeMetaData env uninit env.TYPE_OTHER "cban" extdata cbans).Pairwise
      (fun a b => long_add a.set_on a.length ≤ long_add b.set_on b.length) := by
    simp only [OnDecodeMetaData, and_self, if_true]
    exact sorted_of_spec env.sort hs _
  refine ⟨h1, h2, ?_, ?_, ?_, ?_⟩
  · simp [OnDecodeMetaData]
  · intro e
    exact sorted_of_spec env.sort hs _
  · intro hr
    exact pairwise_of_range _ hr h1
  · intro hr
    exact pairwise_of_range _ hr h2

/-- C4, at an instance: a permanent entry and a timed one, out of order, then
`CBAN #foo 1h spam` by alice at 1000 and a replicated line; all sums are in
range, and the results are in order of the integer sums. -/
theorem sort_invariant_after_add_witness :
    StdSortSpec sample_env.sort CBanComp ∧ sample_env.IsValidChannelName "#foo" = true ∧
    (Handle sample_env 1000 ["#foo", "1h", "spam"] ⟨"alice", true⟩
        [⟨"#b", "bob", 900, 5000, "y"⟩, ⟨"#a", "bob", 950, 0, "x"⟩]).1 =
      [⟨"#a", "bob", 950, 0, "x"⟩, ⟨"#foo", "alice", 1000, 3600, "spam"⟩,
       ⟨"#b", "bob", 900, 5000, "y"⟩] ∧
    (Handle sample_env 1000 ["#foo", "1h", "spam"] ⟨"alice", true⟩
        [⟨"#b", "bob", 900, 5000, "y"⟩, ⟨"#a", "bob", 950, 0, "x"⟩]).1.Pairwise
        (fun a b => a.set_on + a.length ≤ b.set_on + b.length) ∧
    (OnDecodeMetaData sample_env (0, 0) sample_env.TYPE_OTHER "cban" "#c carol 990 20 z"
        [⟨"#b", "bob", 900, 5000, "y"⟩, ⟨"#a", "bob", 950, 0, "x"⟩]).Pairwise
        (fun a b => a.set_on + a.length ≤ b.set_on + b.length) :=
  ⟨sample_sort_spec, by decide,
   by simp only [Handle, ExpireBans_eq]; decide,
   (sort_invariant_after_add sample_env sample_sort_spec 1000 ⟨"alice", true⟩
      [⟨"#b", "bob", 900, 5000, "y"⟩, ⟨"#a", "bob", 950, 0, "x"⟩] "#foo" "1h" ["spam"]
      (by decide) (0, 0) "#c carol 990 20 z").2.2.2.2.1
      (by simp only [Handle, ExpireBans_eq]; decide),
   (sort_invariant_after_add sample_env sample_sort_spec 1000 ⟨"alice", true⟩
      [⟨"#b", "bob", 900, 5000, "y"⟩, ⟨"#a", "bob", 950, 0, "x"⟩] "#foo" "1h" ["spam"]
      (by decide) (0, 0) "#c carol 990 20 z").2.2.2.2.2
      (by decide)⟩

/-- C5 (the collection is always sorted): starting from the empty collection,
after any finite sequence of CBAN commands (add and remove forms), inbound
replication adds, expiry sweeps, join checks and stats queries, the collection
is non-decreasing in `set_on + length` as the program computes the sum, and in
the integer sum when no entry's sum overflows the type `long`; every single
operation, removal and sweep included, keeps a sorted collection sorted. -/
theorem always_sorted (env : Env) (hs : StdSortSpec env.sort CBanComp) (ops : List Op) :
    (run env ops).Pairwise
        (fun a b => long_add a.set_on a.length ≤ long_add b.set_on b.length) ∧
      ((∀ e ∈ run env ops, LONG_MIN ≤ e.set_on + e.length ∧ e.set_on + e.length ≤ LONG_MAX) →
        (run env ops).Pairwise (fun a b => a.set_on + a.length ≤ b.set_on + b.length)) ∧
      (∀ (op : Op) (cbans : cbanlist),
        cbans.Pairwise (fun a b => long_add a.set_on a.length ≤ long_add b.set_on b.length) →
        (apply_op env op cbans).Pairwise
          (fun a b => long_add a.set_on a.length ≤ long_add b.set_on b.length)) :=
  ⟨foldl_apply_sorted env hs ops [] List.Pairwise.nil,
   fun hr => pairwise_of_range _ hr (foldl_apply_sorted env hs ops [] List.Pairwise.nil),
   fun op cbans h => Op_apply_sorted env hs op cbans h⟩

set_option maxRecDepth 20000 in
/-- C5, at an instance: two adds, a replicated add, a join check, a stats
query, a remove and a further add; three bans are left, in order of their
integer sums. -/
theorem always_sorted_witness :
    StdSortSpec sample_env.sort CBanComp ∧
    run sample_env
      [Op.Handle 1000 ["#foo", "1h", "spam"] ⟨"alice", true⟩,
       Op.Handle 1001 ["#bar", "0"] ⟨"alice", true⟩,
       Op.OnDecodeMetaData (0, 0) 4 "cban" "#c carol 990 20 z",
       Op.OnUserPreJoin 1005 ⟨"dave", false⟩ "#foo",
       Op.OnStats 1007 (Char.ofNat 67) ⟨"alice", true⟩ [],
       Op.Handle 1008 ["#c"] ⟨"alice", true⟩,
       Op.Handle 1009 ["#baz", "10m", "flood"] ⟨"alice", true⟩] =
      [⟨"#bar", "alice", 1001, 0, "No reason supplied"⟩,
       ⟨"#baz", "alice", 1009, 600, "flood"⟩,
       ⟨"#foo", "alice", 1000, 3600, "spam"⟩] ∧
    (run sample_env
      [Op.Handle 1000 ["#foo", "1h", "spam"] ⟨"alice", true⟩,
       Op.Handle 1001 ["#bar", "0"] ⟨"alice", true⟩,
       Op.OnDecodeMetaData (0, 0) 4 "cban" "#c carol 990 20 z",
       Op.OnUserPreJoin 1005 ⟨"dave", false⟩ "#foo",
       Op.OnStats 1007 (Char.ofNat 67) ⟨"alice", true⟩ [],
       Op.Handle 1008 ["#c"] ⟨"alice", true⟩,
       Op.Handle 1009 ["#baz", "10m", "flood"] ⟨"alice", true⟩]).Pairwise
      (fun a b => a.set_on + a.length ≤ b.set_on + b.length) :=
  ⟨sample_sort_spec,
   by simp only [run, List.foldl, apply_op, Handle, OnStats, OnUserPreJoin, OnDecodeMetaData,
        ExpireBans_eq]; decide,
   (always_sorted sample_env sample_sort_spec _).2.1
     (by simp only [run, List.foldl, apply_op, Handle, OnStats, OnUserPreJoin,
           OnDecodeMetaData, ExpireBans_eq]; decide)⟩

/-! ## Events of the sweep -/

theorem ExpireBans_events (TIME : Int) (cbans : cbanlist) :
    ∀ o ∈ (ExpireBans TIME cbans).2, ∃ b ∈ cbans,
      o = Out.log b.chname ∨
      o = Out.WriteOpers
        (OperMsg.expired b.length b.chname b.reason (to_unsigned_int (TIME - b.set_on))) := by
  intro o ho
  rw [ExpireBans_snd, List.mem_flatMap] at ho
  obtain ⟨b, hb, hob⟩ := ho
  refine ⟨b, (List.mem_filter.mp hb).1, ?_⟩
  simpa [ExpireBans_notify] using hob

theorem ExpireBans_events_kinds (TIME : Int) (cbans : cbanlist) :
    ∀ o ∈ (ExpireBans TIME cbans).2,
      is_WriteServ o = false ∧ is_join_denial o = false ∧ is_added_broadcast o = false := by
  intro o ho
  obtain ⟨b, _, h | h⟩ := ExpireBans_events TIME cbans o ho <;> subst h <;>
    simp [is_WriteServ, is_join_denial, is_added_broadcast]

theorem ExpireBans_no_expired (TIME : Int) (cbans : cbanlist)
    (h : ∀ e ∈ cbans, ¬ (e.length ≠ 0 ∧ long_add e.set_on e.length ≤ TIME)) :
    ExpireBans TIME cbans = (cbans, []) := by
  have hall : ∀ e ∈ cbans, is_expired TIME e = false := by
    intro e he
    rw [← Bool.not_eq_true, is_expired_iff]
    exact h e he
  rw [ExpireBans_eq]
  have h1 : cbans.filter (fun b => !is_expired TIME b) = cbans := by
    apply List.filter_eq_self.mpr
    intro b hb; simp [hall b hb]
  have h2 : cbans.filter (is_expired TIME) = [] := by
    apply List.filter_eq_nil_iff.mpr
    intro b hb; simp [hall b hb]
  rw [h1, h2]; rfl

/-! ## The join check -/

theorem OnUserPreJoin_for_deny (env : Env) (user : userrec) (cname : String) (l : cbanlist)
    (hop : user.modes_UM_OPERATOR = false) (h : ∃ e ∈ l, env.irc_eq e.chname cname = true) :
    (OnUserPreJoin_for env user cname l).1 = 1 := by
  induction l with
  | nil => simp at h
  | cons b rest ih =>
    unfold OnUserPreJoin_for
    by_cases hb : env.irc_eq b.chname cname = true
    · simp [hb, hop]
    · simp only [hb, Bool.false_and, Bool.false_eq_true, if_false]
      apply ih
      obtain ⟨e, he, hee⟩ := h
      rcases List.mem_cons.mp he with rfl | he
      · exact absurd hee hb
      · exact ⟨e, he, hee⟩

theorem OnUserPreJoin_for_allow (env : Env) (user : userrec) (cname : String) (l : cbanlist)
    (h : ¬ (user.modes_UM_OPERATOR = false ∧ ∃ e ∈ l, env.irc_eq e.chname cname = true)) :
    OnUserPreJoin_for env user cname l = (0, []) := by
  induction l with
  | nil => rfl
  | cons b rest ih =>
    unfold OnUserPreJoin_for
    have hcond : (env.irc_eq b.chname cname && !user.modes_UM_OPERATOR) = false := by
      by_contra hc
      simp only [Bool.not_eq_false, Bool.and_eq_true, Bool.not_eq_eq_eq_not, Bool.not_true] at hc
      exact h ⟨hc.2, b, List.mem_cons_self _ _, hc.1⟩
    simp only [hcond, Bool.false_eq_true, if_false]
    apply ih
    rintro ⟨hop, e, he, hee⟩
    exact h ⟨hop, e, List.mem_cons_of_mem _ he, hee⟩

/-- C6 (join enforcement decision): `OnUserPreJoin` returns 1 exactly when the
user is not an operator and, after the sweep at `now`, some entry's channel
equals the requested name under the `irc::string` comparison; otherwise it
returns 0 and emits nothing beyond the events of the sweep, so neither the 384
reply to the user nor the denied-join broadcast to operators. -/
theorem join_decision (env : Env) (now : Int) (user : userrec) (cname : String)
    (cbans : cbanlist) :
    ((OnUserPreJoin env now user cname cbans).1 = 1 ↔
        (user.modes_UM_OPERATOR = false ∧
          ∃ e ∈ (ExpireBans now cbans).1, env.irc_eq e.chname cname = true)) ∧
      (¬ (user.modes_UM_OPERATOR = false ∧
          ∃ e ∈ (ExpireBans now cbans).1, env.irc_eq e.chname cname = true) →
        (OnUserPreJoin env now user cname cbans).1 = 0 ∧
        (OnUserPreJoin env now user cname cbans).2.2 = (ExpireBans now cbans).2 ∧
        ∀ o ∈ (OnUserPreJoin env now user cname cbans).2.2, is_join_denial o = false) := by
  constructor
  · constructor
    · intro h1
      by_contra hc
      have h0 := OnUserPreJoin_for_allow env user cname _ hc
      simp only [OnUserPreJoin, h0] at h1
      exact absurd h1 (by decide)
    · rintro ⟨hop, hex⟩
      exact OnUserPreJoin_for_deny env user cname _ hop hex
  · intro hc
    have h0 := OnUserPreJoin_for_allow env user cname _ hc
    simp only [OnUserPreJoin, h0, List.append_nil, true_and]
    intro o ho
    exact (ExpireBans_events_kinds now cbans o ho).2.1

/-- C6, at the instance of the claim: `#foo` banned at 1000 for 3600 seconds
and a join at 1200; a user who is not an operator is denied, an operator is
let through. -/
theorem join_decision_witness :
    (OnUserPreJoin sample_env 1200 ⟨"dave", false⟩ "#foo"
        [⟨"#foo", "alice", 1000, 3600, "spam"⟩]).1 = 1 ∧
      (OnUserPreJoin sample_env 1200 ⟨"olga", true⟩ "#foo"
        [⟨"#foo", "alice", 1000, 3600, "spam"⟩]).1 = 0 :=
  ⟨(join_decision sample_env 1200 ⟨"dave", false⟩ "#foo"
      [⟨"#foo", "alice", 1000, 3600, "spam"⟩]).1.mpr
      ⟨rfl, by rw [ExpireBans_fst]; decide⟩,
   ((join_decision sample_env 1200 ⟨"olga", true⟩ "#foo"
      [⟨"#foo", "alice", 1000, 3600, "spam"⟩]).2 (by simp)).1⟩

/-! ## The remove form -/

theorem Handle_remove_for_found (env : Env) (TIME : Int) (user : userrec) (p0 : String)
    (l : cbanlist) (h : ∃ e ∈ l, env.irc_eq p0 e.chname = true) :
    ∃ (pre : cbanlist) (x : CBan) (post : cbanlist),
      l = pre ++ x :: post ∧ (∀ y ∈ pre, env.irc_eq p0 y.chname = false) ∧
      env.irc_eq p0 x.chname = true ∧
      Handle_remove_for env TIME user p0 l =
        (pre ++ post,
         [Out.WriteServ user.nick (ServMsg.removed_386 x.chname
            (to_unsigned_long ((x.set_on + x.length) - TIME)) x.reason)]) := by
  induction l with
  | nil => simp at h
  | cons b rest ih =>
    by_cases hb : env.irc_eq p0 b.chname = true
    · refine ⟨[], b, rest, rfl, by simp, hb, ?_⟩
      simp [Handle_remove_for, hb]
    · have hrest : ∃ e ∈ rest, env.irc_eq p0 e.chname = true := by
        obtain ⟨e, he, hee⟩ := h
        rcases List.mem_cons.mp he with rfl | he
        · exact absurd hee hb
        · exact ⟨e, he, hee⟩
      obtain ⟨pre, x, post, hl, hpre, hx, hr⟩ := ih hrest
      refine ⟨b :: pre, x, post, by rw [hl]; rfl, ?_, hx, ?_⟩
      · intro y hy
        rcases List.mem_cons.mp hy with rfl | hy
        · simpa using hb
        · exact hpre y hy
      · simp only [Handle_remove_for, hb, Bool.false_eq_true, if_false, hr]
        rfl

theorem Handle_remove_for_not_found (env : Env) (TIME : Int) (user : userrec) (p0 : String)
    (l : cbanlist) (h : ∀ e ∈ l, env.irc_eq p0 e.chname = false) :
    Handle_remove_for env TIME user p0 l = (l, []) := by
  induction l with
  | nil => rfl
  | cons b rest ih =>
    have hb := h b (List.mem_cons_self _ _)
    have hr := ih (fun e he => h e (List.mem_cons_of_mem _ he))
    simp [Handle_remove_for, hb, hr]

/-- C7 (remove-first semantics): when, after the sweep, the collection holds
an entry for channel `c`, the remove form deletes exactly one entry, the first
in collection order whose channel equals `c` under the `irc::string`
comparison; every entry before it and after it (later entries for the same
channel included) stays, in the same order. -/
theorem remove_first (env : Env) (now : Int) (user : userrec) (c : String) (cbans : cbanlist)
    (h : ∃ e ∈ (ExpireBans now cbans).1, env.irc_eq c e.chname = true) :
    ∃ (pre : cbanlist) (x : CBan) (post : cbanlist),
      (ExpireBans now cbans).1 = pre ++ x :: post ∧
      (∀ y ∈ pre, env.irc_eq c y.chname = false) ∧
      env.irc_eq c x.chname = true ∧
      (Handle env now [c] user cbans).1 = pre ++ post ∧
      (Handle env now [c] user cbans).1.length + 1 = (ExpireBans now cbans).1.length := by
  obtain ⟨pre, x, post, hl, hpre, hx, hr⟩ :=
    Handle_remove_for_found env now user c (ExpireBans now cbans).1 h
  have h1 : (Handle env now [c] user cbans).1 = pre ++ post := by
    simp only [Handle, hr]
  refine ⟨pre, x, post, hl, hpre, hx, h1, ?_⟩
  rw [h1, hl]
  simp only [List.length_append, List.length_cons]
  omega

/-- C7, at an instance: two bans on the same channel (written in different
case) around a ban on another channel. -/
theorem remove_first_witness :
    (∃ e ∈ (ExpireBans 1500 [⟨"#bar", "bob", 1000, 600, "a"⟩, ⟨"#FOO", "bob", 1000, 3600, "b"⟩,
        ⟨"#foo", "alice", 1100, 3600, "c"⟩]).1, sample_env.irc_eq "#foo" e.chname = true) ∧
    (∃ (pre : cbanlist) (x : CBan) (post : cbanlist),
      (ExpireBans 1500 [⟨"#bar", "bob", 1000, 600, "a"⟩, ⟨"#FOO", "bob", 1000, 3600, "b"⟩,
        ⟨"#foo", "alice", 1100, 3600, "c"⟩]).1 = pre ++ x :: post ∧
      (∀ y ∈ pre, sample_env.irc_eq "#foo" y.chname = false) ∧
      sample_env.irc_eq "#foo" x.chname = true ∧
      (Handle sample_env 1500 ["#foo"] ⟨"alice", true⟩
        [⟨"#bar", "bob", 1000, 600, "a"⟩, ⟨"#FOO", "bob", 1000, 3600, "b"⟩,
         ⟨"#foo", "alice", 1100, 3600, "c"⟩]).1 = pre ++ post ∧
      (Handle sample_env 1500 ["#foo"] ⟨"alice", true⟩
        [⟨"#bar", "bob", 1000, 600, "a"⟩, ⟨"#FOO", "bob", 1000, 3600, "b"⟩,
         ⟨"#foo", "alice", 1100, 3600, "c"⟩]).1.length + 1 =
        (ExpireBans 1500 [⟨"#bar", "bob", 1000, 600, "a"⟩, ⟨"#FOO", "bob", 1000, 3600, "b"⟩,
          ⟨"#foo", "alice", 1100, 3600, "c"⟩]).1.length) :=
  ⟨by rw [ExpireBans_fst]; decide,
   remove_first sample_env 1500 ⟨"alice", true⟩ "#foo" _ (by rw [ExpireBans_fst]; decide)⟩

/-! ## Remaining seconds reported by the remove form -/

theorem to_unsigned_long_wraps (v : Int) (h0 : v < 0) (h1 : -((2 : Int) ^ 64) ≤ v) :
    (to_unsigned_long v : Int) = v + (2 : Int) ^ 64 := by
  unfold to_unsigned_long
  have hmod : v % (2 : Int) ^ 64 = v + (2 : Int) ^ 64 := by
    rw [← Int.add_emod_self]
    exact Int.emod_eq_of_lt (by omega) (by omega)
  rw [hmod]
  exact Int.toNat_of_nonneg (by omega)

/-- C8 (remaining seconds on removal) fails for a permanent ban set in the
past: after `CBAN #foo 0 :spam` at 1000, the command `CBAN #foo` at 1500 finds
the entry, whose `(set_on + length) - now` is `-500`, and the 386 reply carries
`2 ^ 64 - 500`.  (For the timed entry of the claim, set at 1000 for 3600
seconds and removed at 1500, the reply carries 3100 and the collection is left
empty.) -/
theorem remove_permanent_reports_wrapped :
    run sample_env [Op.Handle 1000 ["#foo", "0", "spam"] ⟨"alice", true⟩] =
        [⟨"#foo", "alice", 1000, 0, "spam"⟩] ∧
      Handle sample_env 1500 ["#foo"] ⟨"alice", true⟩ [⟨"#foo", "alice", 1000, 0, "spam"⟩] =
        ([], [Out.WriteServ "alice"
          (ServMsg.removed_386 "#foo" 18446744073709551116 "spam")]) ∧
      ((1000 : Int) + 0) - 1500 = -500 ∧
      Handle sample_env 1500 ["#foo"] ⟨"alice", true⟩
          [⟨"#foo", "alice", 1000, 3600, "spam"⟩] =
        ([], [Out.WriteServ "alice" (ServMsg.removed_386 "#foo" 3100 "spam")]) := by
  refine ⟨?_, ?_, by decide, ?_⟩
  · simp only [run, List.foldl, apply_op, Handle, ExpireBans_eq]
    decide
  · simp only [Handle, ExpireBans_eq]
    decide
  · simp only [Handle, ExpireBans_eq]
    decide

/-- C9 (remove without an active ban is a silent no-op): when no entry for
channel `c` is left by the sweep at `now`, the remove form does exactly what
the sweep does: the collection is the swept collection and the events are
those of the sweep, none of which is a reply to the issuer. -/
theorem remove_not_found_silent (env : Env) (now : Int) (user : userrec) (c : String)
    (cbans : cbanlist)
    (h : ∀ e ∈ (ExpireBans now cbans).1, env.irc_eq c e.chname = false) :
    Handle env now [c] user cbans = ExpireBans now cbans ∧
      (Handle env now [c] user cbans).1 = (ExpireBans now cbans).1 ∧
      (∀ o ∈ (Handle env now [c] user cbans).2, is_WriteServ o = false) := by
  have hr := Handle_remove_for_not_found env now user c (ExpireBans now cbans).1 h
  have heq : Handle env now [c] user cbans = ExpireBans now cbans := by
    simp only [Handle, hr, List.append_nil]
  refine ⟨heq, by rw [heq], ?_⟩
  rw [heq]
  intro o ho
  exact (ExpireBans_events_kinds now cbans o ho).1

/-- C9, at an instance: `CBAN #nosuch` at 1500 against a live ban on `#foo`
and an expired ban on `#nosuch`. -/
theorem remove_not_found_silent_witness :
    (∀ e ∈ (ExpireBans 1500 [⟨"#nosuch", "bob", 1000, 10, "a"⟩,
        ⟨"#foo", "alice", 1000, 3600, "spam"⟩]).1, sample_env.irc_eq "#nosuch" e.chname = false) ∧
    (Handle sample_env 1500 ["#nosuch"] ⟨"alice", true⟩
        [⟨"#nosuch", "bob", 1000, 10, "a"⟩, ⟨"#foo", "alice", 1000, 3600, "spam"⟩] =
        ExpireBans 1500 [⟨"#nosuch", "bob", 1000, 10, "a"⟩,
          ⟨"#foo", "alice", 1000, 3600, "spam"⟩] ∧
      (Handle sample_env 1500 ["#nosuch"] ⟨"alice", true⟩
        [⟨"#nosuch", "bob", 1000, 10, "a"⟩, ⟨"#foo", "alice", 1000, 3600, "spam"⟩]).1 =
        (ExpireBans 1500 [⟨"#nosuch", "bob", 1000, 10, "a"⟩,
          ⟨"#foo", "alice", 1000, 3600, "spam"⟩]).1 ∧
      (∀ o ∈ (Handle sample_env 1500 ["#nosuch"] ⟨"alice", true⟩
        [⟨"#nosuch", "bob", 1000, 10, "a"⟩, ⟨"#foo", "alice", 1000, 3600, "spam"⟩]).2,
        is_WriteServ o = false)) :=
  ⟨by rw [ExpireBans_fst]; decide,
   remove_not_found_silent sample_env 1500 ⟨"alice", true⟩ "#nosuch" _
     (by rw [ExpireBans_fst]; decide)⟩

/-! ## The add form with an invalid channel name -/

/-- C10 as stated fails: `CBAN foo 1h` (no leading `#`) at 2000 against a
collection holding a ban that expired at 1010 gets the 403 reply, and the
collection does not stay as it was: the sweep that opens `Handle` has removed
the expired ban. -/
theorem invalid_add_collection_changes :
    sample_env.IsValidChannelName "foo" = false ∧
      (Handle sample_env 2000 ["foo", "1h"] ⟨"alice", true⟩
        [⟨"#old", "bob", 1000, 10, "x"⟩]).1 ≠ [⟨"#old", "bob", 1000, 10, "x"⟩] ∧
      Handle sample_env 2000 ["foo", "1h"] ⟨"alice", true⟩ [⟨"#old", "bob", 1000, 10, "x"⟩] =
        ([], [Out.log "#old", Out.WriteOpers (OperMsg.expired 10 "#old" "x" 1000),
              Out.WriteServ "alice" (ServMsg.invalid_403 "foo")]) := by
  refine ⟨by decide, ?_, ?_⟩
  · simp only [Handle, ExpireBans_eq]
    decide
  · simp only [Handle, ExpireBans_eq]
    decide

/-- C10, amended: an add-form invocation whose channel fails the validator
adds no entry and removes none beyond what the opening sweep removes: the
collection afterwards is the swept collection (the prior collection itself
when nothing in it has expired, by the program's sum, or by the integer sum
when no entry's sum overflows the type `long`), the events are those of the
sweep followed by the 403 reply, this reply is the only reply to the issuer,
and no broadcast for an added ban is emitted. -/
theorem invalid_add_no_mutation (env : Env) (now : Int) (user : userrec) (cbans : cbanlist)
    (p0 p1 : String) (ps : List String) (hv : env.IsValidChannelName p0 = false) :
    (Handle env now (p0 :: p1 :: ps) user cbans).1 = (ExpireBans now cbans).1 ∧
      (Handle env now (p0 :: p1 :: ps) user cbans).2 =
        (ExpireBans now cbans).2 ++ [Out.WriteServ user.nick (ServMsg.invalid_403 p0)] ∧
      (Handle env now (p0 :: p1 :: ps) user cbans).2.filter is_WriteServ =
        [Out.WriteServ user.nick (ServMsg.invalid_403 p0)] ∧
      (∀ o ∈ (Handle env now (p0 :: p1 :: ps) user cbans).2, is_added_broadcast o = false) ∧
      (Handle env now (p0 :: p1 :: ps) user cbans).1.Sublist cbans ∧
      ((∀ e ∈ cbans, ¬ (e.length ≠ 0 ∧ long_add e.set_on e.length ≤ now)) →
        (Handle env now (p0 :: p1 :: ps) user cbans).1 = cbans) ∧
      ((∀ e ∈ cbans, LONG_MIN ≤ e.set_on + e.length ∧ e.set_on + e.length ≤ LONG_MAX) →
        (∀ e ∈ cbans, ¬ (e.length ≠ 0 ∧ e.set_on + e.length ≤ now)) →
        (Handle env now (p0 :: p1 :: ps) user cbans).1 = cbans) := by
  rw [Handle_invalid_eq env now p0 p1 ps user cbans hv]
  refine ⟨rfl, rfl, ?_, ?_, ExpireBans_sublist now cbans, ?_, ?_⟩
  · rw [List.filter_append]
    have h0 : (ExpireBans now cbans).2.filter is_WriteServ = [] := by
      apply List.filter_eq_nil_iff.mpr
      intro o ho
      simp [(ExpireBans_events_kinds now cbans o ho).1]
    rw [h0]
    simp [is_WriteServ]
  · intro o ho
    rcases List.mem_append.mp ho with ho | ho
    · exact (ExpireBans_events_kinds now cbans o ho).2.2
    · simp only [List.mem_singleton] at ho
      subst ho
      rfl
  · intro hno
    rw [ExpireBans_no_expired now cbans hno]
  · intro hr hno
    rw [ExpireBans_no_expired now cbans (fun e he => by
      rw [long_add_of_range _ _ (hr e he).1 (hr e he).2]
      exact hno e he)]

/-- C10 amended, at an instance: `CBAN foo 1h` at 2000 against one expired
and one live ban. -/
theorem invalid_add_no_mutation_witness :
    sample_env.IsValidChannelName "foo" = false ∧
    ((Handle sample_env 2000 ["foo", "1h"] ⟨"alice", true⟩
        [⟨"#old", "bob", 1000, 10, "x"⟩, ⟨"#foo", "bob", 1000, 3600, "y"⟩]).1 =
        (ExpireBans 2000 [⟨"#old", "bob", 1000, 10, "x"⟩, ⟨"#foo", "bob", 1000, 3600, "y"⟩]).1 ∧
      (Handle sample_env 2000 ["foo", "1h"] ⟨"alice", true⟩
        [⟨"#old", "bob", 1000, 10, "x"⟩, ⟨"#foo", "bob", 1000, 3600, "y"⟩]).2 =
        (ExpireBans 2000 [⟨"#old", "bob", 1000, 10, "x"⟩, ⟨"#foo", "bob", 1000, 3600, "y"⟩]).2 ++
          [Out.WriteServ "alice" (ServMsg.invalid_403 "foo")] ∧
      (Handle sample_env 2000 ["foo", "1h"] ⟨"alice", true⟩
        [⟨"#old", "bob", 1000, 10, "x"⟩, ⟨"#foo", "bob", 1000, 3600, "y"⟩]).2.filter
          is_WriteServ = [Out.WriteServ "alice" (ServMsg.invalid_403 "foo")] ∧
      (∀ o ∈ (Handle sample_env 2000 ["foo", "1h"] ⟨"alice", true⟩
        [⟨"#old", "bob", 1000, 10, "x"⟩, ⟨"#foo", "bob", 1000, 3600, "y"⟩]).2,
        is_added_broadcast o = false) ∧
      (Handle sample_env 2000 ["foo", "1h"] ⟨"alice", true⟩
        [⟨"#old", "bob", 1000, 10, "x"⟩, ⟨"#foo", "bob", 1000, 3600, "y"⟩]).1.Sublist
        [⟨"#old", "bob", 1000, 10, "x"⟩, ⟨"#foo", "bob", 1000, 3600, "y"⟩]) :=
  ⟨by decide,
   (invalid_add_no_mutation sample_env 2000 ⟨"alice", true⟩
     [⟨"#old", "bob", 1000, 10, "x"⟩, ⟨"#foo", "bob", 1000, 3600, "y"⟩] "foo" "1h" []
     (by decide)).1,
   (invalid_add_no_mutation sample_env 2000 ⟨"alice", true⟩
     [⟨"#old", "bob", 1000, 10, "x"⟩, ⟨"#foo", "bob", 1000, 3600, "y"⟩] "foo" "1h" []
     (by decide)).2.1,
   (invalid_add_no_mutation sample_env 2000 ⟨"alice", true⟩
     [⟨"#old", "bob", 1000, 10, "x"⟩, ⟨"#foo", "bob", 1000, 3600, "y"⟩] "foo" "1h" []
     (by decide)).2.2.1,
   (invalid_add_no_mutation sample_env 2000 ⟨"alice", true⟩
     [⟨"#old", "bob", 1000, 10, "x"⟩, ⟨"#foo", "bob", 1000, 3600, "y"⟩] "foo" "1h" []
     (by decide)).2.2.2.1,
   (invalid_add_no_mutation sample_env 2000 ⟨"alice", true⟩
     [⟨"#old", "bob", 1000, 10, "x"⟩, ⟨"#foo", "bob", 1000, 3600, "y"⟩] "foo" "1h" []
     (by decide)).2.2.2.2.1⟩

/-! ## The add form with a valid channel name -/

theorem Handle_add_eq (env : Env) (TIME : Int) (p0 p1 : String) (ps : List String)
    (user : userrec) (cbans : cbanlist) (hv : env.IsValidChannelName p0 = true) :
    Handle env TIME (p0 :: p1 :: ps) user cbans =
      (env.sort CBanComp ((ExpireBans TIME cbans).1 ++
          [CBan.mk p0 user.nick TIME (env.CalcDuration p1) (ps.headD "No reason supplied")]),
       (ExpireBans TIME cbans).2 ++
        (if env.CalcDuration p1 > 0 then
          [Out.WriteServ user.nick
             (ServMsg.added_timed_385 p0 (env.CalcDuration p1) (ps.headD "No reason supplied")),
           Out.WriteOpers
             (OperMsg.added_timed user.nick (env.CalcDuration p1) p0
               (ps.headD "No reason supplied"))]
        else
          [Out.WriteServ user.nick
             (ServMsg.added_permanent_385 p0 (ps.headD "No reason supplied")),
           Out.WriteOpers
             (OperMsg.added_permanent user.nick p0 (ps.headD "No reason supplied"))])) := by
  cases ps with
  | nil =>
    simp only [Handle, hv, if_true, List.headD_nil]
    split_ifs <;> rfl
  | cons p2 rest =>
    simp only [Handle, hv, if_true, List.headD_cons]
    split_ifs <;> rfl

/-- C11 (a successful add stores exactly one new entry, without
deduplication): with a valid channel `c`, the add form leaves a rearrangement
of the swept prior collection with the one entry
`{c, user->nick, now, CalcDuration(parameters[1]), reason}` added, where the
reason is the third parameter or `No reason supplied`; the size is that of the
swept collection plus one, whether or not an entry for `c` was there, and every
entry of the swept collection is still present. -/
theorem add_stores_one_entry (env : Env) (hs : StdSortSpec env.sort CBanComp) (now : Int)
    (user : userrec) (cbans : cbanlist) (c p1 : String) (ps : List String)
    (hv : env.IsValidChannelName c = true) :
    (Handle env now (c :: p1 :: ps) user cbans).1.Perm
        ((ExpireBans now cbans).1 ++
          [CBan.mk c user.nick now (env.CalcDuration p1) (ps.headD "No reason supplied")]) ∧
      (Handle env now (c :: p1 :: ps) user cbans).1.length =
        (ExpireBans now cbans).1.length + 1 ∧
      (∀ e : CBan, List.count e (Handle env now (c :: p1 :: ps) user cbans).1 =
        List.count e (ExpireBans now cbans).1 +
          (if e = CBan.mk c user.nick now (env.CalcDuration p1)
              (ps.headD "No reason supplied") then 1 else 0)) := by
  have hperm : (Handle env now (c :: p1 :: ps) user cbans).1.Perm
      ((ExpireBans now cbans).1 ++
        [CBan.mk c user.nick now (env.CalcDuration p1) (ps.headD "No reason supplied")]) := by
    rw [Handle_add_eq env now c p1 ps user cbans hv]
    exact (hs _).1
  refine ⟨hperm, ?_, ?_⟩
  · rw [hperm.length_eq, List.length_append, List.length_singleton]
  · intro e
    rw [hperm.count_eq, List.count_append, List.count_singleton]
    split_ifs with h1 h2 h2
    · rfl
    · exact absurd (beq_iff_eq.mp h1).symm h2
    · exact absurd (beq_iff_eq.mpr h2.symm) h1
    · rfl

/-- C11, at an instance: `CBAN #foo 1h` by alice at 1000 when a ban on `#foo`
is already there. -/
theorem add_stores_one_entry_witness :
    StdSortSpec sample_env.sort CBanComp ∧ sample_env.IsValidChannelName "#foo" = true ∧
    ((Handle sample_env 1000 ["#foo", "1h"] ⟨"alice", true⟩
        [⟨"#foo", "bob", 900, 5000, "y"⟩]).1.Perm
        ((ExpireBans 1000 [⟨"#foo", "bob", 900, 5000, "y"⟩]).1 ++
          [CBan.mk "#foo" (userrec.mk "alice" true).nick 1000 (sample_env.CalcDuration "1h")
            (([] : List String).headD "No reason supplied")]) ∧
      (Handle sample_env 1000 ["#foo", "1h"] ⟨"alice", true⟩
        [⟨"#foo", "bob", 900, 5000, "y"⟩]).1.length =
        (ExpireBans 1000 [⟨"#foo", "bob", 900, 5000, "y"⟩]).1.length + 1 ∧
      (∀ e : CBan, List.count e (Handle sample_env 1000 ["#foo", "1h"] ⟨"alice", true⟩
          [⟨"#foo", "bob", 900, 5000, "y"⟩]).1 =
        List.count e (ExpireBans 1000 [⟨"#foo", "bob", 900, 5000, "y"⟩]).1 +
          (if e = CBan.mk "#foo" (userrec.mk "alice" true).nick 1000
              (sample_env.CalcDuration "1h")
              (([] : List String).headD "No reason supplied") then 1 else 0))) :=
  ⟨sample_sort_spec, by decide,
   add_stores_one_entry sample_env sample_sort_spec 1000 ⟨"alice", true⟩
     [⟨"#foo", "bob", 900, 5000, "y"⟩] "#foo" "1h" [] (by decide)⟩

/-- The wording of the add form follows the test `length > 0` of line 108. -/
theorem Handle_add_wording (env : Env) (TIME : Int) (p0 p1 : String) (ps : List String)
    (user : userrec) (cbans : cbanlist) (hv : env.IsValidChannelName p0 = true) :
    (0 < env.CalcDuration p1 →
      (Handle env TIME (p0 :: p1 :: ps) user cbans).2 = (ExpireBans TIME cbans).2 ++
        [Out.WriteServ user.nick
           (ServMsg.added_timed_385 p0 (env.CalcDuration p1) (ps.headD "No reason supplied")),
         Out.WriteOpers
           (OperMsg.added_timed user.nick (env.CalcDuration p1) p0
             (ps.headD "No reason supplied"))]) ∧
    (env.CalcDuration p1 ≤ 0 →
      (Handle env TIME (p0 :: p1 :: ps) user cbans).2 = (ExpireBans TIME cbans).2 ++
        [Out.WriteServ user.nick
           (ServMsg.added_permanent_385 p0 (ps.headD "No reason supplied")),
         Out.WriteOpers
           (OperMsg.added_permanent user.nick p0 (ps.headD "No reason supplied"))]) := by
  rw [Handle_add_eq env TIME p0 p1 ps user cbans hv]
  constructor
  · intro h
    simp only [gt_iff_lt, h, if_true]
  · intro h
    have hn : ¬ (env.CalcDuration p1 > 0) := not_lt.mpr h
    simp only [hn, if_false]

/-- C12 (wording chosen by `duration == 0` versus nonzero) fails for a
negative duration: when the duration parser returns -5, the add form answers
with the permanent wording, both to the issuer and to operators, and stores an
entry of length -5, which is not permanent: the next sweep at the same time
removes it as expired. -/
theorem add_negative_duration_says_permanent :
    Handle { sample_env with CalcDuration := fun _ => -5 } 1000 ["#foo", "x", "spam"]
        ⟨"alice", true⟩ [] =
      ([⟨"#foo", "alice", 1000, -5, "spam"⟩],
       [Out.WriteServ "alice" (ServMsg.added_permanent_385 "#foo" "spam"),
        Out.WriteOpers (OperMsg.added_permanent "alice" "#foo" "spam")]) ∧
    ExpireBans 1000 [⟨"#foo", "alice", 1000, -5, "spam"⟩] =
      ([], [Out.log "#foo", Out.WriteOpers (OperMsg.expired (-5) "#foo" "spam" 0)]) := by
  constructor
  · simp only [Handle, ExpireBans_eq]
    decide
  · simp only [ExpireBans_eq]
    decide

/-! ## Decoding: the reason field and missing fields -/

theorem DecodeCBan_reason (uninit : Int × Int) (data : String) :
    (DecodeCBan uninit data).reason = data := by
  have hstr : ∀ (st : istringstream) (old : String), (extract_string st old).1.str = st.str := by
    intro st old
    unfold extract_string
    simp only
    split_ifs <;> rfl
  have hlong : ∀ (st : istringstream) (old : Int), (extract_long st old).1.str = st.str := by
    intro st old
    unfold extract_long
    simp only
    split_ifs <;> rfl
  show String.mk (extract_long (extract_long (extract_string
      (extract_irc_string (istringstream.open data) "").1 "").1 uninit.1).1 uninit.2).1.str = data
  rw [hlong, hlong, hstr]
  unfold extract_irc_string
  rw [hstr]
  rfl

/-- C14 (the decoded reason is the whole input line): for every line `s`,
`DecodeCBan(s).reason` is `s`; so for every entry `e` the reason of
`DecodeCBan(EncodeCBan(e))` is the full line
`chname set_by set_on length reason`, and for `{#test, alice, 1000, 3600, spam}`
it is `#test alice 1000 3600 spam`. -/
theorem decoded_reason_is_whole_line (uninit : Int × Int) (s : String) (e : CBan) :
    (DecodeCBan uninit s).reason = s ∧
      (DecodeCBan uninit (EncodeCBan e)).reason = EncodeCBan e ∧
      (DecodeCBan uninit (EncodeCBan e)).reason =
        e.chname ++ " " ++ e.set_by ++ " " ++ insert_long e.set_on ++ " " ++
          insert_long e.length ++ " " ++ e.reason ∧
      (DecodeCBan uninit (EncodeCBan ⟨"#test", "alice", 1000, 3600, "spam"⟩)).reason =
        "#test alice 1000 3600 spam" := by
  refine ⟨DecodeCBan_reason uninit s, DecodeCBan_reason uninit _, ?_, ?_⟩
  · rw [DecodeCBan_reason]
    rfl
  · rw [DecodeCBan_reason]
    decide

/-- C15 (decode is lenient, with zero values for missing fields) fails for
the numeric fields: `DecodeCBan` returns an entry for every line, and a
missing name is the empty string, but a missing `set_on` or `length` is never
assigned, so the entry keeps what the uninitialised members of `CBan res;`
held (here 7 and 8), and after a malformed `set_on` the `length` is not read
either. -/
theorem decode_missing_numbers_not_zero :
    DecodeCBan (7, 8) "#test alice" = ⟨"#test", "alice", 7, 8, "#test alice"⟩ ∧
      DecodeCBan (7, 8) "" = ⟨"", "", 7, 8, ""⟩ ∧
      DecodeCBan (7, 8) "#test alice 1000" = ⟨"#test", "alice", 1000, 8, "#test alice 1000"⟩ ∧
      DecodeCBan (7, 8) "#test alice soon 12" =
        ⟨"#test", "alice", 0, 8, "#test alice soon 12"⟩ := by
  decide

/-! ## Notifications of the sweep -/

theorem filter_length_split (p : CBan → Bool) (l : cbanlist) :
    (l.filter p).length + (l.filter (fun b => !p b)).length = l.length := by
  induction l with
  | nil => rfl
  | cons a t ih =>
    by_cases ha : p a = true
    · simp only [List.filter_cons, ha, if_true, Bool.not_true, Bool.false_eq_true, if_false,
        List.length_cons]
      omega
    · simp only [Bool.not_eq_true] at ha
      simp only [List.filter_cons, ha, Bool.false_eq_true, if_false, Bool.not_false, if_true,
        List.length_cons]
      omega

theorem ExpireBans_opers (TIME : Int) (cbans : cbanlist) :
    (ExpireBans TIME cbans).2.filter is_WriteOpers =
      (cbans.filter (is_expired TIME)).map
        (fun b => Out.WriteOpers
          (OperMsg.expired b.length b.chname b.reason (to_unsigned_int (TIME - b.set_on))))
      := by
  rw [ExpireBans_snd]
  induction cbans.filter (is_expired TIME) with
  | nil => rfl
  | cons a t ih =>
    rw [List.flatMap_cons, List.filter_append, ih]
    rfl

theorem is_expired_eq_decide (TIME : Int) :
    is_expired TIME = fun e => decide (e.length ≠ 0 ∧ long_add e.set_on e.length ≤ TIME) := by
  funext e
  by_cases h : e.length ≠ 0 ∧ long_add e.set_on e.length ≤ TIME
  · rw [(is_expired_iff TIME e).mpr h]; simp [h]
  · have h2 : is_expired TIME e = false := by
      rw [← Bool.not_eq_true, is_expired_iff]; exact h
    rw [h2]; simp only [h, decide_False]

theorem to_unsigned_int_exact (v : Int) (h0 : 0 ≤ v) (h1 : v < (2 : Int) ^ 32) :
    (to_unsigned_int v : Int) = v := by
  unfold to_unsigned_int
  rw [Int.emod_eq_of_lt h0 h1]
  exact Int.toNat_of_nonneg h0

/-- The operator broadcasts of the sweep: one for each entry that the test of
lines 242-244 finds expired, in order, with that entry's length, channel and
reason and with `TIME - set_on` as `%u` shows it, which is `TIME - set_on`
itself when that lies between 0 and `2 ^ 32 - 1`; their number is the number of
entries removed. -/
theorem ExpireBans_notices (now : Int) (cbans : cbanlist) :
    (ExpireBans now cbans).2.filter is_WriteOpers =
        (cbans.filter
            (fun e => decide (e.length ≠ 0 ∧ long_add e.set_on e.length ≤ now))).map
          (fun e => Out.WriteOpers
            (OperMsg.expired e.length e.chname e.reason (to_unsigned_int (now - e.set_on)))) ∧
      ((ExpireBans now cbans).2.filter is_WriteOpers).length + (ExpireBans now cbans).1.length =
        cbans.length ∧
      (∀ e ∈ cbans, 0 ≤ now - e.set_on → now - e.set_on < (2 : Int) ^ 32 →
        (to_unsigned_int (now - e.set_on) : Int) = now - e.set_on) := by
  refine ⟨?_, ?_, ?_⟩
  · rw [ExpireBans_opers, is_expired_eq_decide]
  · rw [ExpireBans_opers, ExpireBans_fst, List.length_map]
    exact filter_length_split (is_expired now) cbans
  · intro e _ h0 h1
    exact to_unsigned_int_exact _ h0 h1

/-- C16 (one expiry notification per removed entry) fails in the elapsed
seconds: a ban replicated with `set_on = -3000000000` and swept at 1700000000
is removed with one broadcast, but line 247 prints the 64-bit `TIME - set_on`
with `%u`, and the broadcast cites 405032704 where `now - set_on` is
4700000000.  (For the entry set at 1000 for 10 seconds and swept at 1011 the
one broadcast cites 11.) -/
theorem expiry_notice_elapsed_wraps :
    DecodeCBan (0, 0) "#x bob -3000000000 10 r" =
        ⟨"#x", "bob", -3000000000, 10, "#x bob -3000000000 10 r"⟩ ∧
      ExpireBans 1700000000 [⟨"#x", "bob", -3000000000, 10, "#x bob -3000000000 10 r"⟩] =
        ([], [Out.log "#x",
              Out.WriteOpers
                (OperMsg.expired 10 "#x" "#x bob -3000000000 10 r" 405032704)]) ∧
      (1700000000 : Int) - (-3000000000) = 4700000000 ∧
      ExpireBans 1011 [⟨"#a", "bob", 1000, 10, "x"⟩] =
        ([], [Out.log "#a", Out.WriteOpers (OperMsg.expired 10 "#a" "x" 11)]) := by
  refine ⟨by decide, ?_, by decide, ?_⟩
  · rw [ExpireBans_eq]; decide
  · rw [ExpireBans_eq]; decide

/-! ## The sweep by a scan of the front against `ExpireBans` -/

theorem Sweep_prefix_scan_cons (now : Int) (b : CBan) (rest : cbanlist) :
    Sweep_prefix_scan now (b :: rest) =
      if is_expired now b then Sweep_prefix_scan now rest else b :: rest := by
  by_cases h : b.length ≠ 0 ∧ long_add b.set_on b.length ≤ now
  · rw [(is_expired_iff now b).mpr h]
    simp only [Sweep_prefix_scan, h, ne_eq, not_false_eq_true, and_self, if_true]
  · have h2 : is_expired now b = false := by
      rw [← Bool.not_eq_true, is_expired_iff]; exact h
    rw [h2]
    simp only [Sweep_prefix_scan, h, if_false, Bool.false_eq_true]

/-- On a collection in the order of `CBanComp`, the scan of the front agrees
with the filter of `ExpireBans` exactly when no permanent entry stands before
an expired one. -/
theorem Sweep_prefix_scan_eq_iff (now : Int) (cbans : cbanlist)
    (hsorted : cbans.Pairwise
      (fun a b => long_add a.set_on a.length ≤ long_add b.set_on b.length)) :
    Sweep_prefix_scan now cbans = cbans.filter (fun b => !is_expired now b) ↔
      cbans.Pairwise (fun a b => a.length = 0 → is_expired now b = false) := by
  induction cbans with
  | nil => simp [Sweep_prefix_scan]
  | cons b rest ih =>
    have ih2 := ih (List.Pairwise.of_cons hsorted)
    rw [Sweep_prefix_scan_cons, List.pairwise_cons]
    by_cases hb : is_expired now b = true
    · have hlen : b.length ≠ 0 := ((is_expired_iff now b).mp hb).1
      simp only [hb, if_true, List.filter_cons, Bool.not_true, Bool.false_eq_true, if_false]
      rw [ih2]
      constructor
      · intro h
        exact ⟨fun x _ h0 => absurd h0 hlen, h⟩
      · intro h
        exact h.2
    · simp only [Bool.not_eq_true] at hb
      simp only [hb, Bool.false_eq_true, if_false, List.filter_cons, Bool.not_false, if_true,
        List.cons.injEq, true_and]
      constructor
      · intro h
        have hall : ∀ x ∈ rest, is_expired now x = false := by
          intro x hx
          have := List.filter_eq_self.mp h.symm x hx
          simpa using this
        refine ⟨fun x hx _ => hall x hx, ?_⟩
        exact List.pairwise_of_forall_mem_list (fun a _ x hx _ => hall x hx)
      · rintro ⟨h1, _⟩
        symm
        apply List.filter_eq_self.mpr
        intro x hx
        rcases (is_expired_false_iff now b).mp hb with h0 | hgt
        · simp [h1 x hx h0]
        · have hle := List.rel_of_pairwise_cons hsorted hx
          have hx2 : is_expired now x = false :=
            (is_expired_false_iff now x).mpr (Or.inr (by omega))
          simp [hx2]

/-- C17 as stated fails: the collection holding a permanent ban set at 500 and
then a ban set at 800 for 100 seconds is sorted by `set_on + length` (500, 900);
at 1000 the scan of the front stops at the permanent ban and removes nothing,
while `ExpireBans` removes the second entry. -/
theorem prefix_scan_differs :
    List.Pairwise (fun a b : CBan => a.set_on + a.length ≤ b.set_on + b.length)
        [⟨"#p", "bob", 500, 0, "x"⟩, ⟨"#t", "bob", 800, 100, "y"⟩] ∧
      Sweep_prefix_scan 1000 [⟨"#p", "bob", 500, 0, "x"⟩, ⟨"#t", "bob", 800, 100, "y"⟩] =
        [⟨"#p", "bob", 500, 0, "x"⟩, ⟨"#t", "bob", 800, 100, "y"⟩] ∧
      (ExpireBans 1000 [⟨"#p", "bob", 500, 0, "x"⟩, ⟨"#t", "bob", 800, 100, "y"⟩]).1 =
        [⟨"#p", "bob", 500, 0, "x"⟩] ∧
      Sweep_prefix_scan 1000 [⟨"#p", "bob", 500, 0, "x"⟩, ⟨"#t", "bob", 800, 100, "y"⟩] ≠
        (ExpireBans 1000 [⟨"#p", "bob", 500, 0, "x"⟩, ⟨"#t", "bob", 800, 100, "y"⟩]).1 := by
  refine ⟨by decide, by decide, ?_, ?_⟩
  · rw [ExpireBans_fst]; decide
  · rw [ExpireBans_fst]; decide

/-- C17, amended: for a collection sorted non-decreasingly by
`set_on + length`, the scan of the front that stops at the first entry not
expired leaves the same collection as `ExpireBans` if and only if no permanent
entry stands before an expired entry in the collection; so it does whenever
the collection holds no permanent entry.  This holds with the sums as the
program computes them, and with the integer sums when no entry's sum overflows
the type `long`. -/
theorem prefix_scan_eq_sweep (now : Int) (cbans : cbanlist) :
    (cbans.Pairwise (fun a b => long_add a.set_on a.length ≤ long_add b.set_on b.length) →
      (Sweep_prefix_scan now cbans = (ExpireBans now cbans).1 ↔
        cbans.Pairwise (fun a b => a.length = 0 →
          ¬ (b.length ≠ 0 ∧ long_add b.set_on b.length ≤ now)))) ∧
    ((∀ e ∈ cbans, LONG_MIN ≤ e.set_on + e.length ∧ e.set_on + e.length ≤ LONG_MAX) →
      cbans.Pairwise (fun a b => a.set_on + a.length ≤ b.set_on + b.length) →
      (Sweep_prefix_scan now cbans = (ExpireBans now cbans).1 ↔
        cbans.Pairwise (fun a b => a.length = 0 →
          ¬ (b.length ≠ 0 ∧ b.set_on + b.length ≤ now)))) ∧
    ((∀ e ∈ cbans, LONG_MIN ≤ e.set_on + e.length ∧ e.set_on + e.length ≤ LONG_MAX) →
      cbans.Pairwise (fun a b => a.set_on + a.length ≤ b.set_on + b.length) →
      (∀ e ∈ cbans, e.length ≠ 0) →
      Sweep_prefix_scan now cbans = (ExpireBans now cbans).1) := by
  have hprog : cbans.Pairwise
      (fun a b => long_add a.set_on a.length ≤ long_add b.set_on b.length) →
      (Sweep_prefix_scan now cbans = (ExpireBans now cbans).1 ↔
        cbans.Pairwise (fun a b => a.length = 0 →
          ¬ (b.length ≠ 0 ∧ long_add b.set_on b.length ≤ now))) := by
    intro hsorted
    rw [ExpireBans_fst, Sweep_prefix_scan_eq_iff now cbans hsorted]
    constructor
    · intro h
      refine List.Pairwise.imp ?_ h
      intro a b hab h0 hexp
      rw [(is_expired_iff now b).mpr hexp] at hab
      exact absurd (hab h0) (by decide)
    · intro h
      refine List.Pairwise.imp ?_ h
      intro a b hab h0
      rw [← Bool.not_eq_true, is_expired_iff]
      exact hab h0
  have hmath : (∀ e ∈ cbans, LONG_MIN ≤ e.set_on + e.length ∧ e.set_on + e.length ≤ LONG_MAX) →
      cbans.Pairwise (fun a b => a.set_on + a.length ≤ b.set_on + b.length) →
      (Sweep_prefix_scan now cbans = (ExpireBans now cbans).1 ↔
        cbans.Pairwise (fun a b => a.length = 0 →
          ¬ (b.length ≠ 0 ∧ b.set_on + b.length ≤ now))) := by
    intro hr hsorted
    have hs2 : cbans.Pairwise
        (fun a b => long_add a.set_on a.length ≤ long_add b.set_on b.length) := by
      refine List.Pairwise.imp_of_mem ?_ hsorted
      intro a b ha hb hab
      rw [long_add_of_range _ _ (hr a ha).1 (hr a ha).2,
        long_add_of_range _ _ (hr b hb).1 (hr b hb).2]
      exact hab
    rw [hprog hs2]
    constructor
    · intro h
      refine List.Pairwise.imp_of_mem ?_ h
      intro a b _ hb hab h0
      rw [← long_add_of_range _ _ (hr b hb).1 (hr b hb).2]
      exact hab h0
    · intro h
      refine List.Pairwise.imp_of_mem ?_ h
      intro a b _ hb hab h0
      rw [long_add_of_range _ _ (hr b hb).1 (hr b hb).2]
      exact hab h0
  refine ⟨hprog, hmath, ?_⟩
  intro hr hsorted hne
  rw [hmath hr hsorted]
  exact List.pairwise_of_forall_mem_list (fun a ha _ _ h0 => absurd h0 (hne a ha))

/-- C17 amended, at an instance with a permanent ban: a ban that ran out at
1000, a permanent ban set at 1000 and a live ban, in order of expiry, swept at
1500; the permanent ban stands behind the expired one, and the scan of the front
removes what `ExpireBans` removes. -/
theorem prefix_scan_eq_sweep_witness :
    (∀ e ∈ ([⟨"#a", "bob", 900, 100, "x"⟩, ⟨"#p", "bob", 1000, 0, "y"⟩,
         ⟨"#c", "bob", 1000, 3600, "z"⟩] : cbanlist),
        LONG_MIN ≤ e.set_on + e.length ∧ e.set_on + e.length ≤ LONG_MAX) ∧
      List.Pairwise (fun a b : CBan => a.set_on + a.length ≤ b.set_on + b.length)
        [⟨"#a", "bob", 900, 100, "x"⟩, ⟨"#p", "bob", 1000, 0, "y"⟩,
         ⟨"#c", "bob", 1000, 3600, "z"⟩] ∧
      List.Pairwise (fun a b : CBan => a.length = 0 →
          ¬ (b.length ≠ 0 ∧ b.set_on + b.length ≤ 1500))
        [⟨"#a", "bob", 900, 100, "x"⟩, ⟨"#p", "bob", 1000, 0, "y"⟩,
         ⟨"#c", "bob", 1000, 3600, "z"⟩] ∧
      Sweep_prefix_scan 1500 [⟨"#a", "bob", 900, 100, "x"⟩, ⟨"#p", "bob", 1000, 0, "y"⟩,
          ⟨"#c", "bob", 1000, 3600, "z"⟩] =
        [⟨"#p", "bob", 1000, 0, "y"⟩, ⟨"#c", "bob", 1000, 3600, "z"⟩] ∧
      Sweep_prefix_scan 1500 [⟨"#a", "bob", 900, 100, "x"⟩, ⟨"#p", "bob", 1000, 0, "y"⟩,
          ⟨"#c", "bob", 1000, 3600, "z"⟩] =
        (ExpireBans 1500 [⟨"#a", "bob", 900, 100, "x"⟩, ⟨"#p", "bob", 1000, 0, "y"⟩,
          ⟨"#c", "bob", 1000, 3600, "z"⟩]).1 :=
  ⟨by decide, by decide, by decide, by decide,
   ((prefix_scan_eq_sweep 1500 _).2.1 (by decide) (by decide)).mpr (by decide)⟩

/-! ## Termination of the sweep and the number of passes -/

theorem ExpireBans_for_erases_one (TIME : Int) (l : cbanlist) (x : CBan) (l2 : cbanlist)
    (h : ExpireBans_for TIME l = some (x, l2)) : l2.length + 1 = l.length := by
  obtain ⟨_, h2, h3⟩ := ExpireBans_for_some TIME l x l2 h
  have e1 := filter_length_split (is_expired TIME) l
  have e2 := filter_length_split (is_expired TIME) l2
  rw [h2, h3, List.length_cons] at e1
  omega

theorem ExpireBans_passes_eq (TIME : Int) :
    ∀ (fuel : Nat) (cbans : cbanlist), (cbans.filter (is_expired TIME)).length < fuel →
      ExpireBans_passes TIME fuel cbans =
        some ((ExpireBans TIME cbans).1, (ExpireBans TIME cbans).2,
          (cbans.filter (is_expired TIME)).length + 1) := by
  intro fuel
  induction fuel with
  | zero => intro cbans h; exact absurd h (Nat.not_lt_zero _)
  | succ fuel ih =>
    intro cbans h
    cases hf : ExpireBans_for TIME cbans with
    | none =>
      have hall := ExpireBans_for_none TIME cbans hf
      have h2 : cbans.filter (is_expired TIME) = [] := by
        apply List.filter_eq_nil_iff.mpr
        intro b hb; simp [hall b hb]
      rw [ExpireBans_of_none TIME cbans hf, h2]
      simp only [ExpireBans_passes, hf]
      rfl
    | some r =>
      obtain ⟨x, l2⟩ := r
      obtain ⟨_, _, h3⟩ := ExpireBans_for_some TIME cbans x l2 hf
      have hlt : (l2.filter (is_expired TIME)).length < fuel := by
        rw [h3, List.length_cons] at h
        omega
      rw [ExpireBans_of_some TIME cbans x l2 hf, h3]
      simp only [ExpireBans_passes, hf, ih l2 hlt, Option.map_some', List.length_cons]

/-- C18 (the sweep always terminates): `ExpireBans` is a total function, and
the loop run with room for `number of entries + 1` passes finishes with the
result of `ExpireBans`, having made one pass more than the number of entries
removed, so at most `number of entries + 1` passes; more room changes nothing,
and every pass that restarts the loop has erased exactly one entry. -/
theorem sweep_terminates (now : Int) (cbans : cbanlist) :
    ExpireBans_passes now (cbans.length + 1) cbans =
        some ((ExpireBans now cbans).1, (ExpireBans now cbans).2,
          (cbans.length - (ExpireBans now cbans).1.length) + 1) ∧
      (cbans.length - (ExpireBans now cbans).1.length) + 1 ≤ cbans.length + 1 ∧
      (∀ fuel : Nat, cbans.length + 1 ≤ fuel →
        ExpireBans_passes now fuel cbans =
          ExpireBans_passes now (cbans.length + 1) cbans) ∧
      (∀ (l : cbanlist) (x : CBan) (l2 : cbanlist),
        ExpireBans_for now l = some (x, l2) → l2.length + 1 = l.length) := by
  have hsplit := filter_length_split (is_expired now) cbans
  have hcount : cbans.length - (ExpireBans now cbans).1.length =
      (cbans.filter (is_expired now)).length := by
    rw [ExpireBans_fst]
    omega
  have hbound : (cbans.filter (is_expired now)).length < cbans.length + 1 := by omega
  refine ⟨?_, by omega, ?_, ?_⟩
  · rw [ExpireBans_passes_eq now _ cbans hbound, hcount]
  · intro fuel hfuel
    rw [ExpireBans_passes_eq now _ cbans hbound,
      ExpireBans_passes_eq now fuel cbans (by omega)]
  · intro l x l2 h
    exact ExpireBans_for_erases_one now l x l2 h

/-! ## Remaining seconds after the sweep -/

theorem dropWhile_all_append (p : Char → Bool) (ws l : List Char)
    (h : ∀ c ∈ ws, p c = true) : (ws ++ l).dropWhile p = l.dropWhile p := by
  induction ws with
  | nil => rfl
  | cons a t ih =>
    have ha := h a (List.mem_cons_self _ _)
    rw [List.cons_append, List.dropWhile_cons_of_pos ha]
    exact ih (fun c hc => h c (List.mem_cons_of_mem _ hc))

theorem takeWhile_append_stop (p : Char → Bool) (l : List Char) (x : Char) (r : List Char)
    (h : ∀ c ∈ l, p c = true) (hx : p x = false) : (l ++ x :: r).takeWhile p = l := by
  induction l with
  | nil => simp [List.takeWhile_cons, hx]
  | cons a t ih =>
    have ha := h a (List.mem_cons_self _ _)
    rw [List.cons_append, List.takeWhile_cons_of_pos ha,
      ih (fun c hc => h c (List.mem_cons_of_mem _ hc))]

theorem dropWhile_append_stop (p : Char → Bool) (l : List Char) (x : Char) (r : List Char)
    (h : ∀ c ∈ l, p c = true) (hx : p x = false) : (l ++ x :: r).dropWhile p = x :: r := by
  rw [dropWhile_all_append p l (x :: r) h]
  simp [List.dropWhile_cons, hx]

theorem digit_char_facts (d : Nat) (h : d < 10) :
    isdigit (digit_char d) = true ∧ (digit_char d).toNat - 48 = d ∧
      isspace (digit_char d) = false := by
  interval_cases d <;> decide

theorem isdigit_not_space (c : Char) (h : isdigit c = true) : isspace c = false := by
  simp only [isdigit, Bool.and_eq_true, decide_eq_true_eq] at h
  simp only [isspace, Bool.or_eq_false_iff, beq_eq_false_iff_ne, ne_eq, Bool.and_eq_false_imp,
    decide_eq_true_eq, decide_eq_false_iff_not, not_le]
  omega

theorem put_digits_spec :
    ∀ (fuel n : Nat) (acc : List Char), n < fuel →
      ∃ ds : List Char, ds ≠ [] ∧ (∀ c ∈ ds, isdigit c = true) ∧
        put_digits fuel n acc = ds ++ acc ∧ digits_value ds = n := by
  intro fuel
  induction fuel with
  | zero => intro n acc h; exact absurd h (Nat.not_lt_zero _)
  | succ fuel ih =>
    intro n acc h
    by_cases hn : n < 10
    · refine ⟨[digit_char n], by simp, ?_, ?_, ?_⟩
      · intro c hc
        rw [List.mem_singleton.mp hc]
        exact (digit_char_facts n hn).1
      · simp [put_digits, hn]
      · simp [digits_value, (digit_char_facts n hn).2.1]
    · have hlt : n / 10 < fuel := by omega
      obtain ⟨ds, hne, hall, heq, hval⟩ := ih (n / 10) (digit_char (n % 10) :: acc) hlt
      have hmod : n % 10 < 10 := Nat.mod_lt _ (by omega)
      refine ⟨ds ++ [digit_char (n % 10)], by simp, ?_, ?_, ?_⟩
      · intro c hc
        rcases List.mem_append.mp hc with hc | hc
        · exact hall c hc
        · rw [List.mem_singleton.mp hc]
          exact (digit_char_facts _ hmod).1
      · simp only [put_digits, hn, if_false, heq, List.append_assoc, List.singleton_append]
      · unfold digits_value at hval ⊢
        rw [List.foldl_append, hval]
        simp only [List.foldl_cons, List.foldl_nil, (digit_char_facts _ hmod).2.1]
        omega

theorem put_nat_spec (n : Nat) :
    put_nat n ≠ [] ∧ (∀ c ∈ put_nat n, isdigit c = true) ∧ digits_value (put_nat n) = n := by
  obtain ⟨ds, hne, hall, heq, hval⟩ := put_digits_spec (n + 1) n [] (Nat.lt_succ_self n)
  have : put_nat n = ds := by rw [put_nat, heq, List.append_nil]
  rw [this]
  exact ⟨hne, hall, hval⟩

theorem extract_string_token (st : istringstream) (old : String) (ws name rest : List Char)
    (hf : st.fail = false) (hg : st.gptr = ws ++ (name ++ Char.ofNat 32 :: rest))
    (hws : ∀ c ∈ ws, isspace c = true) (hne : name ≠ [])
    (hname : ∀ c ∈ name, isspace c = false) :
    extract_string st old =
      ({ st with gptr := Char.ofNat 32 :: rest }, String.mk name) := by
  have hnot : ∀ c ∈ name, (fun c => !isspace c) c = true := by
    intro c hc; simp [hname c hc]
  have hsp : (fun c => !isspace c) (Char.ofNat 32) = false := by decide
  have hdrop : st.gptr.dropWhile isspace = name ++ Char.ofNat 32 :: rest := by
    rw [hg, dropWhile_all_append isspace ws _ hws]
    cases name with
    | nil => exact absurd rfl hne
    | cons a t =>
      rw [List.cons_append]
      exact List.dropWhile_cons_of_neg (by simp [hname a (List.mem_cons_self _ _)])
  have hemp : (name ++ Char.ofNat 32 :: rest).isEmpty = false := by
    cases name <;> rfl
  unfold extract_string
  simp only [hf, Bool.false_eq_true, if_false, hdrop, hemp,
    takeWhile_append_stop _ name _ rest hnot hsp, dropWhile_append_stop _ name _ rest hnot hsp]

theorem extract_long_digits (st : istringstream) (old : Int) (sign ds rest : List Char)
    (neg : Bool) (hf : st.fail = false)
    (hdrop : st.gptr.dropWhile isspace = sign ++ (ds ++ Char.ofNat 32 :: rest))
    (hsign : (neg = true ∧ sign = [Char.ofNat 45]) ∨ (neg = false ∧ sign = []))
    (hne : ds ≠ []) (hds : ∀ c ∈ ds, isdigit c = true)
    (hlo : LONG_MIN ≤ (if neg then -(digits_value ds : Int) else (digits_value ds : Int)))
    (hhi : (if neg then -(digits_value ds : Int) else (digits_value ds : Int)) ≤ LONG_MAX) :
    extract_long st old =
      ({ st with gptr := Char.ofNat 32 :: rest },
       if neg then -(digits_value ds : Int) else (digits_value ds : Int)) := by
  have hsp : isdigit (Char.ofNat 32) = false := by decide
  have htake := takeWhile_append_stop isdigit ds _ rest hds hsp
  have hdropd := dropWhile_append_stop isdigit ds _ rest hds hsp
  obtain ⟨a, t, rfl⟩ : ∃ a t, ds = a :: t := by
    cases ds with
    | nil => exact absurd rfl hne
    | cons a t => exact ⟨a, t, rfl⟩
  have ha : isdigit a = true := hds a (List.mem_cons_self _ _)
  have ha45 : (a == Char.ofNat 45) = false := by
    rw [beq_eq_false_iff_ne]
    rintro rfl
    exact absurd ha (by decide)
  have ha43 : (a == Char.ofNat 43) = false := by
    rw [beq_eq_false_iff_ne]
    rintro rfl
    exact absurd ha (by decide)
  have hlo2 := not_lt.mpr hlo
  have hhi2 := not_lt.mpr hhi
  simp only [List.cons_append] at htake hdropd
  unfold extract_long
  rcases hsign with ⟨hn, hs⟩ | ⟨hn, hs⟩
  · subst hn; subst hs
    simp only [if_true] at hlo2 hhi2
    simp only [hf, Bool.false_eq_true, if_false, hdrop, List.singleton_append, List.cons_append,
      List.nil_append, List.isEmpty_cons, List.head?_cons, beq_self_eq_true, Bool.true_or,
      if_true, List.tail_cons, htake, hdropd, hlo2, hhi2]
  · subst hn; subst hs
    simp only [Bool.false_eq_true, if_false] at hlo2 hhi2
    simp only [hf, Bool.false_eq_true, if_false, hdrop, List.nil_append, List.cons_append,
      List.isEmpty_cons, List.head?_cons, Option.some_beq_some, ha45, ha43, Bool.or_self,
      htake, hdropd, hlo2, hhi2]

theorem extract_long_token (st : istringstream) (old : Int) (ws rest : List Char) (v : Int)
    (hf : st.fail = false)
    (hg : st.gptr = ws ++ ((insert_long v).data ++ Char.ofNat 32 :: rest))
    (hws : ∀ c ∈ ws, isspace c = true) (hlo : LONG_MIN ≤ v) (hhi : v ≤ LONG_MAX) :
    extract_long st old = ({ st with gptr := Char.ofNat 32 :: rest }, v) := by
  by_cases hv : v < 0
  · obtain ⟨hne, hall, hval⟩ := put_nat_spec v.natAbs
    have hdata : (insert_long v).data = [Char.ofNat 45] ++ put_nat v.natAbs := by
      simp only [insert_long, hv, if_true, List.singleton_append]
    have hdrop : st.gptr.dropWhile isspace =
        [Char.ofNat 45] ++ (put_nat v.natAbs ++ Char.ofNat 32 :: rest) := by
      rw [hg, dropWhile_all_append isspace ws _ hws, hdata, List.append_assoc]
      exact List.dropWhile_cons_of_neg (by decide)
    have hvalue : (if true = true then -(digits_value (put_nat v.natAbs) : Int)
        else (digits_value (put_nat v.natAbs) : Int)) = v := by
      rw [if_pos rfl, hval]
      omega
    have h := extract_long_digits st old [Char.ofNat 45] (put_nat v.natAbs) rest true hf hdrop
      (Or.inl ⟨rfl, rfl⟩) hne hall (by rw [hvalue]; exact hlo) (by rw [hvalue]; exact hhi)
    rw [hvalue] at h
    exact h
  · obtain ⟨hne, hall, hval⟩ := put_nat_spec v.toNat
    have hdata : (insert_long v).data = put_nat v.toNat := by
      simp only [insert_long, hv, if_false]
    have hdrop : st.gptr.dropWhile isspace =
        [] ++ (put_nat v.toNat ++ Char.ofNat 32 :: rest) := by
      rw [hg, dropWhile_all_append isspace ws _ hws, hdata, List.nil_append]
      cases hp : put_nat v.toNat with
      | nil => exact absurd hp hne
      | cons a t =>
        rw [List.cons_append]
        have ha : isdigit a = true := hall a (by rw [hp]; exact List.mem_cons_self _ _)
        exact List.dropWhile_cons_of_neg (by simp [isdigit_not_space a ha])
    have hvalue : (if false = true then -(digits_value (put_nat v.toNat) : Int)
        else (digits_value (put_nat v.toNat) : Int)) = v := by
      rw [if_neg (by decide), hval]
      omega
    have h := extract_long_digits st old [] (put_nat v.toNat) rest false hf hdrop
      (Or.inr ⟨rfl, rfl⟩) hne hall (by rw [hvalue]; exact hlo) (by rw [hvalue]; exact hhi)
    rw [hvalue] at h
    exact h

theorem EncodeCBan_data (e : CBan) :
    (EncodeCBan e).data =
      e.chname.data ++ Char.ofNat 32 ::
        (e.set_by.data ++ Char.ofNat 32 ::
          ((insert_long e.set_on).data ++ Char.ofNat 32 ::
            ((insert_long e.length).data ++ Char.ofNat 32 :: e.reason.data))) := by
  have hsp : (" " : String).data = [Char.ofNat 32] := by decide
  simp only [EncodeCBan, insert_irc_string, String.data_append, hsp, List.append_assoc,
    List.singleton_append, List.cons_append]
  rfl

theorem no_whitespace_data (s : String) (h : no_whitespace s = true) :
    ∀ c ∈ s.data, isspace c = false := by
  intro c hc
  have := List.all_eq_true.mp h c hc
  simpa using this

theorem data_ne_nil (s : String) (h : s ≠ "") : s.data ≠ [] := by
  intro hd
  apply h
  cases s with
  | mk d =>
    simp only at hd
    rw [hd]

/-- Decoding an encoded entry gives back the first four fields and takes the
whole line as the reason, when the two names are non-empty and free of white
space and the two numbers are in the range of `long`. -/
theorem DecodeCBan_EncodeCBan (uninit : Int × Int) (e : CBan)
    (hc1 : e.chname ≠ "") (hc2 : no_whitespace e.chname = true)
    (hs1 : e.set_by ≠ "") (hs2 : no_whitespace e.set_by = true)
    (hon : LONG_MIN ≤ e.set_on ∧ e.set_on ≤ LONG_MAX)
    (hlen : LONG_MIN ≤ e.length ∧ e.length ≤ LONG_MAX) :
    DecodeCBan uninit (EncodeCBan e) =
      ⟨e.chname, e.set_by, e.set_on, e.length, EncodeCBan e⟩ := by
  have h1 : extract_irc_string (istringstream.open (EncodeCBan e)) "" =
      (⟨(EncodeCBan e).data, Char.ofNat 32 ::
          (e.set_by.data ++ Char.ofNat 32 ::
            ((insert_long e.set_on).data ++ Char.ofNat 32 ::
              ((insert_long e.length).data ++ Char.ofNat 32 :: e.reason.data))), false⟩,
       e.chname) := by
    unfold extract_irc_string
    rw [extract_string_token (istringstream.open (EncodeCBan e)) "" [] e.chname.data _ rfl
      (by rw [List.nil_append]; exact EncodeCBan_data e) (by simp) (data_ne_nil _ hc1)
      (no_whitespace_data _ hc2)]
    rfl
  have h2 : extract_string
      ⟨(EncodeCBan e).data, Char.ofNat 32 ::
          (e.set_by.data ++ Char.ofNat 32 ::
            ((insert_long e.set_on).data ++ Char.ofNat 32 ::
              ((insert_long e.length).data ++ Char.ofNat 32 :: e.reason.data))), false⟩ "" =
      (⟨(EncodeCBan e).data, Char.ofNat 32 ::
            ((insert_long e.set_on).data ++ Char.ofNat 32 ::
              ((insert_long e.length).data ++ Char.ofNat 32 :: e.reason.data)), false⟩,
       e.set_by) := by
    rw [extract_string_token _ "" [Char.ofNat 32] e.set_by.data _ rfl rfl
      (by intro c hc; rw [List.mem_singleton.mp hc]; decide) (data_ne_nil _ hs1)
      (no_whitespace_data _ hs2)]
  have h3 : extract_long
      ⟨(EncodeCBan e).data, Char.ofNat 32 ::
            ((insert_long e.set_on).data ++ Char.ofNat 32 ::
              ((insert_long e.length).data ++ Char.ofNat 32 :: e.reason.data)), false⟩
        uninit.1 =
      (⟨(EncodeCBan e).data, Char.ofNat 32 ::
              ((insert_long e.length).data ++ Char.ofNat 32 :: e.reason.data), false⟩,
       e.set_on) := by
    rw [extract_long_token _ uninit.1 [Char.ofNat 32] _ e.set_on rfl rfl
      (by intro c hc; rw [List.mem_singleton.mp hc]; decide) hon.1 hon.2]
  have h4 : extract_long
      ⟨(EncodeCBan e).data, Char.ofNat 32 ::
              ((insert_long e.length).data ++ Char.ofNat 32 :: e.reason.data), false⟩
        uninit.2 =
      (⟨(EncodeCBan e).data, Char.ofNat 32 :: e.reason.data, false⟩, e.length) := by
    rw [extract_long_token _ uninit.2 [Char.ofNat 32] _ e.length rfl rfl
      (by intro c hc; rw [List.mem_singleton.mp hc]; decide) hlen.1 hlen.2]
  simp only [DecodeCBan, h1, h2, h3, h4]

/-- C13 as stated fails for an empty channel name, which holds no white space:
the encoded line then starts with the separator, and decoding reads `set_by`
as the channel, `set_on` as `set_by`, `length` as `set_on`, and fails on the
reason where it looks for `length`. -/
theorem decode_encode_empty_channel :
    no_whitespace (CBan.mk "" "alice" 1000 3600 "spam").chname = true ∧
      no_whitespace (CBan.mk "" "alice" 1000 3600 "spam").set_by = true ∧
      EncodeCBan ⟨"", "alice", 1000, 3600, "spam"⟩ = " alice 1000 3600 spam" ∧
      DecodeCBan (0, 0) (EncodeCBan ⟨"", "alice", 1000, 3600, "spam"⟩) =
        ⟨"alice", "1000", 3600, 0, " alice 1000 3600 spam"⟩ ∧
      (DecodeCBan (0, 0) (EncodeCBan ⟨"", "alice", 1000, 3600, "spam"⟩)).chname ≠
        (CBan.mk "" "alice" 1000 3600 "spam").chname := by
  decide

/-- C13, amended: for every entry whose channel and `set_by` are non-empty and
hold no white space, with `set_on` and `length` any values of the type `long`
and any reason, `DecodeCBan(EncodeCBan(entry))` has the `chname`, `set_by`,
`set_on` and `length` of the entry. -/
theorem decode_encode_fields (uninit : Int × Int) (e : CBan)
    (hc1 : e.chname ≠ "") (hc2 : no_whitespace e.chname = true)
    (hs1 : e.set_by ≠ "") (hs2 : no_whitespace e.set_by = true)
    (hon : LONG_MIN ≤ e.set_on ∧ e.set_on ≤ LONG_MAX)
    (hlen : LONG_MIN ≤ e.length ∧ e.length ≤ LONG_MAX) :
    (DecodeCBan uninit (EncodeCBan e)).chname = e.chname ∧
      (DecodeCBan uninit (EncodeCBan e)).set_by = e.set_by ∧
      (DecodeCBan uninit (EncodeCBan e)).set_on = e.set_on ∧
      (DecodeCBan uninit (EncodeCBan e)).length = e.length := by
  rw [DecodeCBan_EncodeCBan uninit e hc1 hc2 hs1 hs2 hon hlen]
  exact ⟨rfl, rfl, rfl, rfl⟩

/-- C13 amended, at the instance of the claim: `#test alice 1000 3600`. -/
theorem decode_encode_fields_witness :
    ((CBan.mk "#test" "alice" 1000 3600 "spam").chname ≠ "" ∧
      no_whitespace (CBan.mk "#test" "alice" 1000 3600 "spam").chname = true ∧
      (CBan.mk "#test" "alice" 1000 3600 "spam").set_by ≠ "" ∧
      no_whitespace (CBan.mk "#test" "alice" 1000 3600 "spam").set_by = true ∧
      (LONG_MIN ≤ (1000 : Int) ∧ (1000 : Int) ≤ LONG_MAX) ∧
      (LONG_MIN ≤ (3600 : Int) ∧ (3600 : Int) ≤ LONG_MAX)) ∧
    ((DecodeCBan (7, 8) (EncodeCBan ⟨"#test", "alice", 1000, 3600, "spam"⟩)).chname =
        (CBan.mk "#test" "alice" 1000 3600 "spam").chname ∧
      (DecodeCBan (7, 8) (EncodeCBan ⟨"#test", "alice", 1000, 3600, "spam"⟩)).set_by =
        (CBan.mk "#test" "alice" 1000 3600 "spam").set_by ∧
      (DecodeCBan (7, 8) (EncodeCBan ⟨"#test", "alice", 1000, 3600, "spam"⟩)).set_on =
        (CBan.mk "#test" "alice" 1000 3600 "spam").set_on ∧
      (DecodeCBan (7, 8) (EncodeCBan ⟨"#test", "alice", 1000, 3600, "spam"⟩)).length =
        (CBan.mk "#test" "alice" 1000 3600 "spam").length) :=
  ⟨by decide,
   decode_encode_fields (7, 8) ⟨"#test", "alice", 1000, 3600, "spam"⟩
     (by decide) (by decide) (by decide) (by decide) (by decide) (by decide)⟩

/-! ## Encoding a decoded line again -/

theorem EncodeCBan_length (b : CBan) :
    (EncodeCBan b).length =
      b.chname.length + b.set_by.length + (insert_long b.set_on).length +
        (insert_long b.length).length + b.reason.length + 4 := by
  have hsp : (" " : String).length = 1 := by decide
  simp only [EncodeCBan, insert_irc_string, String.length_append, hsp]
  omega

/-- C19 (replication is not a fixed point of the codec): for every entry whose
channel and `set_by` are non-empty and hold no white space, the reason decoded
from the encoded entry is the whole encoded line, which is longer than the
original reason, and encoding the decoded entry gives a line strictly longer
than the first one; with `set_on` and `length` in the range of `long` that line
is the four fields followed by the first line. -/
theorem reencode_strictly_longer (uninit : Int × Int) (e : CBan)
    (hc1 : e.chname ≠ "") (hc2 : no_whitespace e.chname = true)
    (hs1 : e.set_by ≠ "") (hs2 : no_whitespace e.set_by = true) :
    (EncodeCBan e).length < (EncodeCBan (DecodeCBan uninit (EncodeCBan e))).length ∧
      (DecodeCBan uninit (EncodeCBan e)).reason =
        e.chname ++ " " ++ e.set_by ++ " " ++ insert_long e.set_on ++ " " ++
          insert_long e.length ++ " " ++ e.reason ∧
      e.reason.length < (DecodeCBan uninit (EncodeCBan e)).reason.length ∧
      ((LONG_MIN ≤ e.set_on ∧ e.set_on ≤ LONG_MAX) →
        (LONG_MIN ≤ e.length ∧ e.length ≤ LONG_MAX) →
        EncodeCBan (DecodeCBan uninit (EncodeCBan e)) =
          e.chname ++ " " ++ e.set_by ++ " " ++ insert_long e.set_on ++ " " ++
            insert_long e.length ++ " " ++ EncodeCBan e) := by
  have hreason := DecodeCBan_reason uninit (EncodeCBan e)
  refine ⟨?_, ?_, ?_, ?_⟩
  · rw [EncodeCBan_length (DecodeCBan uninit (EncodeCBan e)), hreason]
    omega
  · rw [hreason]
    rfl
  · rw [hreason, EncodeCBan_length e]
    omega
  · intro hon hlen
    rw [DecodeCBan_EncodeCBan uninit e hc1 hc2 hs1 hs2 hon hlen]
    rfl

/-- C19, at an instance: `#test alice 1000 3600 spam` encoded, decoded and
encoded again. -/
theorem reencode_strictly_longer_witness :
    ((CBan.mk "#test" "alice" 1000 3600 "spam").chname ≠ "" ∧
      no_whitespace (CBan.mk "#test" "alice" 1000 3600 "spam").chname = true ∧
      (CBan.mk "#test" "alice" 1000 3600 "spam").set_by ≠ "" ∧
      no_whitespace (CBan.mk "#test" "alice" 1000 3600 "spam").set_by = true) ∧
    EncodeCBan (DecodeCBan (7, 8) (EncodeCBan ⟨"#test", "alice", 1000, 3600, "spam"⟩)) =
      "#test alice 1000 3600 #test alice 1000 3600 spam" ∧
    (EncodeCBan ⟨"#test", "alice", 1000, 3600, "spam"⟩).length <
      (EncodeCBan (DecodeCBan (7, 8)
        (EncodeCBan ⟨"#test", "alice", 1000, 3600, "spam"⟩))).length :=
  ⟨by decide, by decide,
   (reencode_strictly_longer (7, 8) ⟨"#test", "alice", 1000, 3600, "spam"⟩
     (by decide) (by decide) (by decide) (by decide)).1⟩

end CBanModule
